import Mathlib

/-!
# Camera calibration session controller

A shallow embedding of `main` in `camera_calibration.cpp`: the mode-selection
loop, the frame-accumulation loop with its one-second gate, the synthesis of
the board's world points, the solve-and-persist step and the live-undistort
loop.

Everything the program reads from the outside (keys returned by `cv::waitKey`,
frames pulled from the camera, the result of `cv::findChessboardCorners`,
the value of `clock()`, the contents of the preset files, and the value
returned by `cv::calibrateCamera`) is an explicit input.  Every call the
program makes to the outside is recorded, in order, in a trace of events.

Conventions:
* `double` timestamps are exact rationals (seconds);
* the `int` board dimensions and counters are naturals (the program's
  constants are 9, 6 and 20; no arithmetic on them leaves the `int` range);
* `static_cast<float>` of the small naturals `j / W` and `j % W` is exact.
-/

namespace CameraCalibration

/-! ## Data model -/

/-- The type `cv::Point2f`: a sub-pixel corner location in the image plane. -/
structure Point2f where
  x : ℚ
  y : ℚ
deriving DecidableEq

/-- The type `cv::Point3f`: a point of the board in world coordinates. -/
structure Point3f where
  x : ℚ
  y : ℚ
  z : ℚ
deriving DecidableEq

/-- The type `cv::Size`. -/
structure Size where
  width : Nat
  height : Nat
deriving DecidableEq

/-- A `cv::Mat` as far as the controller looks at it: its entries, row by row.
The matrix is `empty()` when it has no entries. -/
abbrev Mat := List (List ℚ)

/-- The test `Mat::empty()`. -/
def Mat.empty (m : Mat) : Bool := m.isEmpty

/-- A frame pulled from the camera (`camera >> frame`): only its size matters
to the controller.  A frame without pixels is `empty()`. -/
structure Frame where
  size : Size
deriving DecidableEq

/-- The test `frame.empty()`: no pixel data. -/
def Frame.empty (f : Frame) : Bool := f.size.width * f.size.height == 0

/-- The constants declared at lines 31-36 of `main`. -/
structure Config where
  board_width : Nat
  board_height : Nat
  number_of_images : Nat
deriving DecidableEq

/-- The values the program is compiled with: a 9 x 6 board, 20 images. -/
def defaultConfig : Config :=
  { board_width := 9, board_height := 6, number_of_images := 20 }

/-- Line 33: `int number_of_boards = board_width * board_height`. -/
def number_of_boards (cfg : Config) : Nat := cfg.board_width * cfg.board_height

/-- Calls to the outside and assignments worth observing, in program order. -/
inductive Event where
  | cout (msg : String)
  | namedWindow (name : String)
  | destroyWindow (name : String)
  | destroyAllWindows
  | pullFrame
  | findChessboardCorners
  | accepted (timestamp : ℚ)
  | imshow (name : String)
  | waitKey
  | calibrateCamera (object_points : List (List Point3f))
      (image_points : List (List Point2f)) (frame_size : Size)
  | fsWrite (path : String)
  | fsRead (path : String)
  | undistort
deriving DecidableEq

/-- The mutable locals of `main`, together with the trace of events so far. -/
structure State where
  image_points : List (List Point2f)
  object_points : List (List Point3f)
  last_captured_timestamp : ℚ
  frame_size : Size
  intrinsic_matrix : Mat
  distortion_coefficients : Mat
  trace : List Event
deriving DecidableEq

/-- The locals as declared at lines 26-49, before anything has run. -/
def State.init : State :=
  { image_points := []
    object_points := []
    last_captured_timestamp := 0
    frame_size := ⟨0, 0⟩
    intrinsic_matrix := []
    distortion_coefficients := []
    trace := [] }

/-- Append one event to the trace. -/
def State.log (s : State) (e : Event) : State :=
  { s with trace := s.trace ++ [e] }

/-- What one iteration of the accumulation loop reads from the outside: the
frame pulled, the answer of `cv::findChessboardCorners` on it, the value of
`clock() / CLOCKS_PER_SEC`, and the key `cv::waitKey(1)` has to offer. -/
structure AccumInput where
  frame : Frame
  found : Bool
  corners : List Point2f
  timestamp : ℚ
  key : Char
deriving DecidableEq

/-- What one iteration of the live-undistort loop reads from the outside. -/
structure LiveInput where
  frame : Frame
  key : Char
deriving DecidableEq

/-- How the body of a loop hands control back: to the loop test (`next`,
which covers both `continue` and falling off the end of the body) or out of
the loop (`break`). -/
inductive LoopCtl where
  | next
  | brk
deriving DecidableEq

/-- Where the controller stands when its inputs are used up. -/
inductive Phase where
  | awaitingMode
  | accumulating
  | ready
  | liveUndistort
  | finished
deriving DecidableEq

/-- Everything outside the program for one session. -/
structure Env where
  cameraOpened : Bool
  modeKeys : List Char
  accumInputs : List AccumInput
  liveInputs : List LiveInput
  calibrateCamera : List (List Point3f) → List (List Point2f) → Size → Mat × Mat × ℚ
  bad_calib : Mat × Mat
  good_calib : Mat × Mat

/-! ## World points (lines 87-93) -/

/-- Lines 89-93: `opts.resize(number_of_boards)` followed by the loop
`for (j = 0; j < number_of_boards; j++) opts[j] = Point3f(j / W, j % W, 0)`. -/
def synthObjectPoints (cfg : Config) : List Point3f :=
  (List.range (number_of_boards cfg)).foldl
    (fun opts j =>
      opts.set j ⟨((j / cfg.board_width : Nat) : ℚ), ((j % cfg.board_width : Nat) : ℚ), 0⟩)
    (List.replicate (number_of_boards cfg) ⟨0, 0, 0⟩)

/-! ## Accumulation loop (lines 60-102) -/

/-- Lines 63-101: the body of the accumulation loop. -/
def accumBody (cfg : Config) (s : State) (i : AccumInput) : State × LoopCtl :=
  let s := s.log Event.pullFrame
  if i.frame.empty then
    (s, LoopCtl.next)
  else
    let s := { s with frame_size := i.frame.size }
    let s := s.log Event.findChessboardCorners
    let timestamp := i.timestamp
    let s :=
      if i.found && decide (timestamp - s.last_captured_timestamp > 1) then
        { s with
          last_captured_timestamp := timestamp
          image_points := s.image_points ++ [i.corners]
          object_points := s.object_points ++ [synthObjectPoints cfg]
          trace := s.trace ++ [Event.accepted timestamp] }
      else s
    let s := s.log (Event.imshow "Working Frame")
    let s := s.log Event.waitKey
    if i.key = 'q' then (s, LoopCtl.brk) else (s, LoopCtl.next)

/-- How the accumulation loop stands after the inputs given to it: left
through its test, left through `break`, or still running. -/
inductive LoopResult where
  | exitedGuard (s : State)
  | exitedBreak (s : State)
  | running (s : State)
deriving DecidableEq

/-- The state held by a loop result. -/
def LoopResult.state : LoopResult → State
  | LoopResult.exitedGuard s => s
  | LoopResult.exitedBreak s => s
  | LoopResult.running s => s

/-- Lines 60-102: `while (image_points.size() < number_of_images) { body }`,
one input per iteration. -/
def accumLoop (cfg : Config) : State → List AccumInput → LoopResult
  | s, [] =>
    if s.image_points.length < cfg.number_of_images then LoopResult.running s
    else LoopResult.exitedGuard s
  | s, i :: rest =>
    if s.image_points.length < cfg.number_of_images then
      match accumBody cfg s i with
      | (s1, LoopCtl.brk) => LoopResult.exitedBreak s1
      | (s1, LoopCtl.next) => accumLoop cfg s1 rest
    else LoopResult.exitedGuard s

/-! ## The three branches of mode selection (lines 58-152) -/

/-- Lines 107-129: solve from the samples held, report, and persist. -/
def solveAndPersist (env : Env) (s : State) : State :=
  let r := env.calibrateCamera s.object_points s.image_points s.frame_size
  let s := s.log (Event.calibrateCamera s.object_points s.image_points s.frame_size)
  let s := { s with intrinsic_matrix := r.1, distortion_coefficients := r.2.1 }
  let s := s.log (Event.cout "Reprojection error is: ")
  s.log (Event.fsWrite "calibration_data.xml")

/-- Lines 58-132: the branch for key `'1'`. -/
def generate (cfg : Config) (env : Env) (s : State) : State × Phase :=
  match accumLoop cfg s env.accumInputs with
  | LoopResult.running s1 => (s1, Phase.accumulating)
  | LoopResult.exitedGuard s1 => (solveAndPersist env s1, Phase.ready)
  | LoopResult.exitedBreak s1 => (solveAndPersist env s1, Phase.ready)

/-- Lines 134-139 and 144-149: read both matrices from a preset file. -/
def loadPreset (path : String) (file : Mat × Mat) (s : State) : State :=
  let s := s.log (Event.fsRead path)
  { s with intrinsic_matrix := file.1, distortion_coefficients := file.2 }

/-- Lines 54-153: the mode-selection loop, one key per iteration. -/
def modeSelection (cfg : Config) (env : Env) : State → List Char → State × Phase
  | s, [] => (s, Phase.awaitingMode)
  | s, c :: rest =>
    let s := s.log Event.waitKey
    if c = '1' then generate cfg env s
    else if c = '2' then (loadPreset "bad_calib.xml" env.bad_calib s, Phase.ready)
    else if c = '3' then (loadPreset "good_calib.xml" env.good_calib s, Phase.ready)
    else modeSelection cfg env s rest

/-! ## Live undistort (lines 154-189) -/

/-- Lines 166-184: the body of the live-undistort loop. -/
def liveBody (s : State) (i : LiveInput) : State × LoopCtl :=
  let s := s.log Event.pullFrame
  let s := s.log (Event.imshow "Distorted Image")
  let s := s.log Event.undistort
  let s := s.log (Event.imshow "Calibrated Image")
  let s := s.log Event.waitKey
  if i.key = 'q' then (s, LoopCtl.brk) else (s, LoopCtl.next)

/-- Lines 163-189: `while (true) { body }`, then the shutdown. -/
def liveLoop : State → List LiveInput → State × Phase
  | s, [] => (s, Phase.liveUndistort)
  | s, i :: rest =>
    match liveBody s i with
    | (s1, LoopCtl.brk) =>
      (((s1.log Event.destroyAllWindows).log (Event.cout "Done.")), Phase.finished)
    | (s1, LoopCtl.next) => liveLoop s1 rest

/-- Lines 154-189: what runs once the mode-selection loop has been left. -/
def afterModeSelection (env : Env) (s : State) : State × Phase :=
  let s := s.log (Event.destroyWindow "Working Frame")
  let s := s.log (Event.namedWindow "Calibrated Image")
  let s := s.log (Event.namedWindow "Distorted Image")
  let s :=
    if s.intrinsic_matrix.empty || s.distortion_coefficients.empty then
      s.log (Event.cout "Calibration data is unavailable")
    else s
  liveLoop s env.liveInputs

/-- Lines 17-51: the start-up messages and the first window. -/
def startup (env : Env) : State :=
  let s := State.init.log (Event.cout "Calibrating a camera using OpenCV.")
  let s := if env.cameraOpened then s else s.log (Event.cout "Camera could not be opened.")
  let s := s.log (Event.cout "Start camera calibration\nChoose calibration method")
  let s := s.log (Event.cout "'1': Generate new calibration values")
  let s := s.log (Event.cout "'2': Use bad calibration values")
  let s := s.log (Event.cout "'3': Use good calibration values")
  s.log (Event.namedWindow "Working Frame")

/-- The whole of `main`. -/
def main (cfg : Config) (env : Env) : State × Phase :=
  match modeSelection cfg env (startup env) env.modeKeys with
  | (s, Phase.ready) => afterModeSelection env s
  | r => r

/-! ## Observations on traces -/

/-- The timestamp of an acceptance event. -/
def acceptedOf : Event → Option ℚ
  | Event.accepted t => some t
  | _ => none

/-- The values assigned to `last_captured_timestamp` at line 83, in order. -/
def acceptedTimestamps (tr : List Event) : List ℚ := tr.filterMap acceptedOf

/-- The arguments of a solver call. -/
def solverCallOf : Event → Option (List (List Point3f) × List (List Point2f) × Size)
  | Event.calibrateCamera ops ips sz => some (ops, ips, sz)
  | _ => none

/-- The arguments of the calls to `cv::calibrateCamera`, in order. -/
def solverCalls (tr : List Event) : List (List (List Point3f) × List (List Point2f) × Size) :=
  tr.filterMap solverCallOf

/-- The three branches of the mode-selection loop. -/
inductive Branch where
  | solveAndPersist
  | loadBad
  | loadGood
deriving DecidableEq

/-- The branch an event belongs to: the solver call marks branch `'1'`, the
read of a preset file marks branch `'2'` or `'3'`. -/
def branchOf : Event → Option Branch
  | Event.calibrateCamera _ _ _ => some Branch.solveAndPersist
  | Event.fsRead path =>
    if path = "bad_calib.xml" then some Branch.loadBad
    else if path = "good_calib.xml" then some Branch.loadGood
    else none
  | _ => none

/-- The branches that ran, in order. -/
def branchesRun (tr : List Event) : List Branch := tr.filterMap branchOf

/-- The number of frames pulled from the camera. -/
def framesPulled (tr : List Event) : Nat := tr.count Event.pullFrame

/-- The point `(floor (j / W), j mod W, 0)`, with the floor taken in the
rationals, as the specification words it. -/
def gridPoint (W j : Nat) : Point3f :=
  ⟨((⌊(j : ℚ) / (W : ℚ)⌋ : ℤ) : ℚ), ((j % W : Nat) : ℚ), 0⟩

/-- Events that carry no sample, no solver call and no file access: the
messages, the windows, the frame pulls, the detector calls and the key polls. -/
def Event.isControl : Event → Bool
  | Event.accepted _ => false
  | Event.calibrateCamera _ _ _ => false
  | Event.fsWrite _ => false
  | Event.fsRead _ => false
  | _ => true

/-- The state after `k` further key polls that changed nothing else. -/
def keyPolls (s : State) (k : Nat) : State :=
  { s with trace := s.trace ++ List.replicate k Event.waitKey }

/-- A key that selects one of the three branches. -/
def isModeKey (c : Char) : Bool := c == '1' || c == '2' || c == '3'

/-! ## Concrete inputs used to run the controller -/

/-- A 640 x 480 frame. -/
def vgaFrame : Frame := ⟨⟨640, 480⟩⟩

/-- A frame without pixels, as a camera that could not be opened yields. -/
def emptyFrame : Frame := ⟨⟨0, 0⟩⟩

/-- A stand-in for `cv::calibrateCamera`: the identity camera matrix, five
zero distortion coefficients, and zero reprojection error. -/
def stubSolver (_ : List (List Point3f)) (_ : List (List Point2f)) (_ : Size) :
    Mat × Mat × ℚ :=
  ([[1, 0, 0], [0, 1, 0], [0, 0, 1]], [[0, 0, 0, 0, 0]], 0)

/-- A session with the given keys and loop inputs; `bad_calib.xml` is absent
(reading it yields empty matrices), `good_calib.xml` holds the identity. -/
def sessionOf (keys : List Char) (acc : List AccumInput) (live : List LiveInput) : Env :=
  { cameraOpened := true
    modeKeys := keys
    accumInputs := acc
    liveInputs := live
    calibrateCamera := stubSolver
    bad_calib := ([], [])
    good_calib := ([[1, 0, 0], [0, 1, 0], [0, 0, 1]], [[0, 0, 0, 0, 0]]) }

/-- An iteration that sees the board at time `t` and polls key `c`. -/
def boardSeen (t : ℚ) (c : Char) : AccumInput :=
  { frame := vgaFrame, found := true, corners := [⟨1, 1⟩], timestamp := t, key := c }

/-- An iteration that does not see the board at time `t` and polls key `c`. -/
def boardMissed (t : ℚ) (c : Char) : AccumInput :=
  { frame := vgaFrame, found := false, corners := [], timestamp := t, key := c }

/-- An iteration whose frame is empty, while key `c` is waiting. -/
def noFrame (c : Char) : AccumInput :=
  { frame := emptyFrame, found := false, corners := [], timestamp := 0, key := c }

/-- Generate mode, one sample accepted at 1.5 s, and `'q'` in that iteration. -/
def oneSampleThenQuit : Env :=
  sessionOf ['1'] [boardSeen (3 / 2) 'q'] []

/-- Generate mode, and `'q'` in the first iteration, before any sample. -/
def quitAtOnce : Env :=
  sessionOf ['1'] [boardMissed 0 'q'] []

/-- Generate mode after one stray key, the board seen every two seconds for
twenty iterations, then one live frame with `'q'`. -/
def fullRun : Env :=
  sessionOf ['x', '1'] ((List.range 20).map fun n => boardSeen (2 * (n : ℚ) + 2) 'x')
    [⟨vgaFrame, 'q'⟩]

/-- Preset `'2'` after one stray key, with `bad_calib.xml` absent; frames are
on offer to the accumulation loop but it never runs. -/
def presetBadAbsent : Env :=
  sessionOf ['x', '2'] [boardSeen 2 'x', boardSeen 4 'x'] [⟨vgaFrame, 'x'⟩]

/-- Preset `'3'`, then two live frames, the second with `'q'`. -/
def presetGood : Env :=
  sessionOf ['3'] [boardSeen 2 'x'] [⟨vgaFrame, 'x'⟩, ⟨vgaFrame, 'q'⟩]

/-! # Properties -/

/-! ## World points -/

theorem fill_spec (W n k : Nat) (hk : k ≤ n) :
    ((List.range k).foldl
        (fun opts j => opts.set j (⟨((j / W : Nat) : ℚ), ((j % W : Nat) : ℚ), 0⟩ : Point3f))
        (List.replicate n ⟨0, 0, 0⟩)).length = n ∧
    ∀ j, j < k →
      ((List.range k).foldl
        (fun opts j => opts.set j (⟨((j / W : Nat) : ℚ), ((j % W : Nat) : ℚ), 0⟩ : Point3f))
        (List.replicate n ⟨0, 0, 0⟩))[j]? =
        some ⟨((j / W : Nat) : ℚ), ((j % W : Nat) : ℚ), 0⟩ := by
  induction k with
  | zero => simp
  | succ k ih =>
    obtain ⟨hlen, hget⟩ := ih (Nat.le_of_succ_le hk)
    rw [List.range_succ, List.foldl_append]
    refine ⟨by simp [hlen], ?_⟩
    intro j hj
    simp only [List.foldl_cons, List.foldl_nil, List.getElem?_set, hlen]
    by_cases hjk : k = j
    · subst hjk
      simp [Nat.lt_of_succ_le hk]
    · rw [if_neg hjk]
      exact hget j (by omega)

theorem synthObjectPoints_length (cfg : Config) :
    (synthObjectPoints cfg).length = cfg.board_width * cfg.board_height :=
  (fill_spec cfg.board_width (number_of_boards cfg) (number_of_boards cfg) (Nat.le_refl _)).1

theorem synthObjectPoints_get (cfg : Config) (j : Nat)
    (hj : j < cfg.board_width * cfg.board_height) :
    (synthObjectPoints cfg)[j]? = some (gridPoint cfg.board_width j) := by
  have h := (fill_spec cfg.board_width (number_of_boards cfg) (number_of_boards cfg)
    (Nat.le_refl _)).2 j hj
  unfold synthObjectPoints
  rw [h]
  simp only [gridPoint, Rat.floor_natCast_div_natCast]
  norm_cast

/-! ## One iteration of the accumulation loop -/

theorem accumBody_empty (cfg : Config) (s : State) (i : AccumInput)
    (he : i.frame.empty = true) :
    accumBody cfg s i = (s.log Event.pullFrame, LoopCtl.next) := by
  simp [accumBody, he]

theorem accumBody_accept (cfg : Config) (s : State) (i : AccumInput)
    (he : i.frame.empty = false) (hf : i.found = true)
    (ht : i.timestamp - s.last_captured_timestamp > 1) :
    accumBody cfg s i =
      ({ s with
          frame_size := i.frame.size
          last_captured_timestamp := i.timestamp
          image_points := s.image_points ++ [i.corners]
          object_points := s.object_points ++ [synthObjectPoints cfg]
          trace := s.trace ++ [Event.pullFrame, Event.findChessboardCorners,
            Event.accepted i.timestamp, Event.imshow "Working Frame", Event.waitKey] },
        if i.key = 'q' then LoopCtl.brk else LoopCtl.next) := by
  by_cases hq : i.key = 'q' <;> simp [accumBody, he, hf, State.log, ht, hq]

theorem accumBody_reject (cfg : Config) (s : State) (i : AccumInput)
    (he : i.frame.empty = false)
    (hn : ¬ (i.found = true ∧ i.timestamp - s.last_captured_timestamp > 1)) :
    accumBody cfg s i =
      ({ s with
          frame_size := i.frame.size
          trace := s.trace ++ [Event.pullFrame, Event.findChessboardCorners,
            Event.imshow "Working Frame", Event.waitKey] },
        if i.key = 'q' then LoopCtl.brk else LoopCtl.next) := by
  have hc : (i.found && decide (i.timestamp - s.last_captured_timestamp > 1)) = false := by
    rcases Bool.eq_false_or_eq_true i.found with hf | hf
    · have : ¬ (i.timestamp - s.last_captured_timestamp > 1) := fun h => hn ⟨hf, h⟩
      simp [hf, this]
    · simp [hf]
  by_cases hq : i.key = 'q' <;> simp [accumBody, he, State.log, hc, hq]

/-- Any property kept by the loop body under the loop test is kept by the loop. -/
theorem accumLoop_induction (cfg : Config) (P : State → Prop)
    (hbody : ∀ s i, s.image_points.length < cfg.number_of_images → P s →
      P (accumBody cfg s i).1) :
    ∀ (ins : List AccumInput) (s : State), P s → P (accumLoop cfg s ins).state := by
  intro ins
  induction ins with
  | nil =>
    intro s hs
    unfold accumLoop
    split <;> exact hs
  | cons i rest ih =>
    intro s hs
    unfold accumLoop
    split
    · next hg =>
      have hb := hbody s i hg hs
      split
      · next s1 heq => rw [heq] at hb; exact hb
      · next s1 heq => rw [heq] at hb; exact ih s1 hb
    · exact hs

/-- The three ways an iteration can go. -/
theorem accumBody_cases (cfg : Config) (s : State) (i : AccumInput) :
    (i.frame.empty = true ∧ accumBody cfg s i = (s.log Event.pullFrame, LoopCtl.next)) ∨
    (i.frame.empty = false ∧ i.found = true ∧
      i.timestamp - s.last_captured_timestamp > 1 ∧
      accumBody cfg s i =
        ({ s with
            frame_size := i.frame.size
            last_captured_timestamp := i.timestamp
            image_points := s.image_points ++ [i.corners]
            object_points := s.object_points ++ [synthObjectPoints cfg]
            trace := s.trace ++ [Event.pullFrame, Event.findChessboardCorners,
              Event.accepted i.timestamp, Event.imshow "Working Frame", Event.waitKey] },
          if i.key = 'q' then LoopCtl.brk else LoopCtl.next)) ∨
    (i.frame.empty = false ∧
      ¬ (i.found = true ∧ i.timestamp - s.last_captured_timestamp > 1) ∧
      accumBody cfg s i =
        ({ s with
            frame_size := i.frame.size
            trace := s.trace ++ [Event.pullFrame, Event.findChessboardCorners,
              Event.imshow "Working Frame", Event.waitKey] },
          if i.key = 'q' then LoopCtl.brk else LoopCtl.next)) := by
  rcases Bool.eq_false_or_eq_true i.frame.empty with he | he
  · exact Or.inl ⟨he, accumBody_empty cfg s i he⟩
  · by_cases hacc : i.found = true ∧ i.timestamp - s.last_captured_timestamp > 1
    · exact Or.inr (Or.inl ⟨he, hacc.1, hacc.2, accumBody_accept cfg s i he hacc.1 hacc.2⟩)
    · exact Or.inr (Or.inr ⟨he, hacc, accumBody_reject cfg s i he hacc⟩)

/-- The body leaves the loop exactly when it gets as far as polling the key
(the frame is not empty) and the key is `'q'`. -/
theorem accumBody_brk_iff (cfg : Config) (s : State) (i : AccumInput) :
    (accumBody cfg s i).2 = LoopCtl.brk ↔ (i.frame.empty = false ∧ i.key = 'q') := by
  rcases accumBody_cases cfg s i with ⟨he, h⟩ | ⟨he, _, _, h⟩ | ⟨he, _, h⟩ <;>
    rw [h] <;> by_cases hq : i.key = 'q' <;> simp [he, hq]

/-! ## The accumulation loop as a whole -/

theorem accumLoop_exitedGuard (cfg : Config) :
    ∀ (ins : List AccumInput) (s s1 : State),
      accumLoop cfg s ins = LoopResult.exitedGuard s1 →
      cfg.number_of_images ≤ s1.image_points.length := by
  intro ins
  induction ins with
  | nil =>
    intro s s1 h
    unfold accumLoop at h
    split at h
    · cases h
    · next hg => cases h; omega
  | cons i rest ih =>
    intro s s1 h
    unfold accumLoop at h
    split at h
    · split at h
      · cases h
      · next s2 _ => exact ih s2 s1 h
    · next hg => cases h; omega

theorem accumLoop_running (cfg : Config) :
    ∀ (ins : List AccumInput) (s s1 : State),
      accumLoop cfg s ins = LoopResult.running s1 →
      s1.image_points.length < cfg.number_of_images := by
  intro ins
  induction ins with
  | nil =>
    intro s s1 h
    unfold accumLoop at h
    split at h
    · next hg => cases h; exact hg
    · cases h
  | cons i rest ih =>
    intro s s1 h
    unfold accumLoop at h
    split at h
    · split at h
      · cases h
      · next s2 _ => exact ih s2 s1 h
    · cases h

/-- Leaving through `break` means some iteration, entered under the loop
test, pulled a frame that was not empty and polled `'q'`. -/
theorem accumLoop_exitedBreak (cfg : Config) :
    ∀ (ins : List AccumInput) (s s1 : State),
      accumLoop cfg s ins = LoopResult.exitedBreak s1 →
      ∃ s0 i, i ∈ ins ∧ s0.image_points.length < cfg.number_of_images ∧
        i.frame.empty = false ∧ i.key = 'q' ∧ accumBody cfg s0 i = (s1, LoopCtl.brk) := by
  intro ins
  induction ins with
  | nil =>
    intro s s1 h
    unfold accumLoop at h
    split at h <;> cases h
  | cons i rest ih =>
    intro s s1 h
    unfold accumLoop at h
    split at h
    · next hg =>
      split at h
      · next s2 heq =>
        cases h
        have hb : (accumBody cfg s i).2 = LoopCtl.brk := by rw [heq]
        have hq := (accumBody_brk_iff cfg s i).1 hb
        exact ⟨s, i, List.mem_cons_self _ _, hg, hq.1, hq.2, heq⟩
      · next s2 _ =>
        obtain ⟨s0, j, hj, rest1⟩ := ih s2 s1 h
        exact ⟨s0, j, List.mem_cons_of_mem _ hj, rest1⟩
    · cases h

/-- Running the loop on more inputs continues from where it stood. -/
theorem accumLoop_append (cfg : Config) (more : List AccumInput) :
    ∀ (ins : List AccumInput) (s : State),
      accumLoop cfg s (ins ++ more) =
        match accumLoop cfg s ins with
        | LoopResult.running s1 => accumLoop cfg s1 more
        | r => r := by
  intro ins
  induction ins with
  | nil =>
    intro s
    simp only [List.nil_append]
    by_cases hg : s.image_points.length < cfg.number_of_images
    · simp [accumLoop, hg]
    · cases more <;> simp [accumLoop, hg]
  | cons i rest ih =>
    intro s
    simp only [List.cons_append]
    by_cases hg : s.image_points.length < cfg.number_of_images
    · simp only [accumLoop, hg, if_true]
      split
      · rfl
      · next s2 _ => exact ih s2
    · simp [accumLoop, hg]

theorem accumLoop_single (cfg : Config) (s : State) (i : AccumInput)
    (hg : s.image_points.length < cfg.number_of_images) :
    (accumLoop cfg s [i]).state = (accumBody cfg s i).1 := by
  simp only [accumLoop, hg, if_true]
  split
  · next s1 heq => simp [LoopResult.state, heq]
  · next s1 heq =>
    simp only [heq]
    split <;> rfl

/-! ## Invariants of the accumulation loop -/

/-- One iteration under the loop test keeps the two lists paired and within
the target, and adds at most one sample. -/
theorem accumBody_sizes (cfg : Config) (s : State) (i : AccumInput)
    (hg : s.image_points.length < cfg.number_of_images)
    (hp : s.image_points.length = s.object_points.length) :
    (accumBody cfg s i).1.image_points.length = (accumBody cfg s i).1.object_points.length ∧
    (accumBody cfg s i).1.image_points.length ≤ cfg.number_of_images ∧
    s.image_points.length ≤ (accumBody cfg s i).1.image_points.length ∧
    (accumBody cfg s i).1.image_points.length ≤ s.image_points.length + 1 := by
  rcases accumBody_cases cfg s i with ⟨_, h⟩ | ⟨_, _, _, h⟩ | ⟨_, _, h⟩ <;>
    rw [h] <;> simp [State.log, hp] <;> omega

theorem accumLoop_sizes (cfg : Config) (ins : List AccumInput) (s : State)
    (hp : s.image_points.length = s.object_points.length)
    (hn : s.image_points.length ≤ cfg.number_of_images) :
    (accumLoop cfg s ins).state.image_points.length =
        (accumLoop cfg s ins).state.object_points.length ∧
    (accumLoop cfg s ins).state.image_points.length ≤ cfg.number_of_images :=
  accumLoop_induction cfg
    (fun t => t.image_points.length = t.object_points.length ∧
      t.image_points.length ≤ cfg.number_of_images)
    (fun t i hg ht =>
      ⟨(accumBody_sizes cfg t i hg ht.1).1, (accumBody_sizes cfg t i hg ht.1).2.1⟩)
    ins s ⟨hp, hn⟩

/-- Every world-point list stored is the synthesized one. -/
theorem accumLoop_object_points (cfg : Config) (ins : List AccumInput) (s : State)
    (hs : ∀ o ∈ s.object_points, o = synthObjectPoints cfg) :
    ∀ o ∈ (accumLoop cfg s ins).state.object_points, o = synthObjectPoints cfg :=
  accumLoop_induction cfg (fun t => ∀ o ∈ t.object_points, o = synthObjectPoints cfg)
    (fun t i _ ht => by
      rcases accumBody_cases cfg t i with ⟨_, h⟩ | ⟨_, _, _, h⟩ | ⟨_, _, h⟩ <;> rw [h]
      · exact ht
      · intro o ho
        simp only [List.mem_append, List.mem_singleton] at ho
        rcases ho with ho | ho
        · exact ht o ho
        · exact ho
      · exact ht)
    ins s hs

/-- The loop touches neither matrix. -/
theorem accumLoop_matrices (cfg : Config) (ins : List AccumInput) (s : State) :
    (accumLoop cfg s ins).state.intrinsic_matrix = s.intrinsic_matrix ∧
    (accumLoop cfg s ins).state.distortion_coefficients = s.distortion_coefficients :=
  accumLoop_induction cfg
    (fun t => t.intrinsic_matrix = s.intrinsic_matrix ∧
      t.distortion_coefficients = s.distortion_coefficients)
    (fun t i _ ht => by
      rcases accumBody_cases cfg t i with ⟨_, h⟩ | ⟨_, _, _, h⟩ | ⟨_, _, h⟩ <;>
        rw [h] <;> exact ht)
    ins s ⟨rfl, rfl⟩

/-- The gap required between two accepted timestamps. -/
theorem acceptedTimestamps_append (tr more : List Event) :
    acceptedTimestamps (tr ++ more) = acceptedTimestamps tr ++ acceptedTimestamps more := by
  simp [acceptedTimestamps, List.filterMap_append]

/-- The accepted timestamps are more than one second apart, and the last of
them is the value held by `last_captured_timestamp`. -/
theorem accumBody_spacing (cfg : Config) (s : State) (i : AccumInput)
    (hc : List.Chain' (fun a b : ℚ => 1 < b - a) (acceptedTimestamps s.trace))
    (hl : ∀ t ∈ (acceptedTimestamps s.trace).getLast?, t = s.last_captured_timestamp) :
    List.Chain' (fun a b : ℚ => 1 < b - a) (acceptedTimestamps (accumBody cfg s i).1.trace) ∧
    ∀ t ∈ (acceptedTimestamps (accumBody cfg s i).1.trace).getLast?,
      t = (accumBody cfg s i).1.last_captured_timestamp := by
  rcases accumBody_cases cfg s i with ⟨_, h⟩ | ⟨_, _, ht, h⟩ | ⟨_, _, h⟩ <;> rw [h]
  · simp only [State.log, acceptedTimestamps_append]
    have hm : acceptedTimestamps [Event.pullFrame] = [] := rfl
    rw [hm, List.append_nil]
    exact ⟨hc, hl⟩
  · simp only [acceptedTimestamps_append]
    have hm : acceptedTimestamps [Event.pullFrame, Event.findChessboardCorners,
        Event.accepted i.timestamp, Event.imshow "Working Frame", Event.waitKey]
        = [i.timestamp] := by
      simp [acceptedTimestamps, acceptedOf]
    rw [hm]
    refine ⟨?_, by simp⟩
    rw [List.chain'_append]
    refine ⟨hc, by simp, ?_⟩
    intro x hx y hy
    simp only [List.head?_cons, Option.mem_def, Option.some.injEq] at hy
    subst hy
    rw [hl x hx]
    exact ht
  · simp only [acceptedTimestamps_append]
    have hm : acceptedTimestamps [Event.pullFrame, Event.findChessboardCorners,
        Event.imshow "Working Frame", Event.waitKey] = [] := rfl
    rw [hm, List.append_nil]
    exact ⟨hc, hl⟩

theorem accumLoop_spacing (cfg : Config) (ins : List AccumInput) (s : State)
    (hc : List.Chain' (fun a b : ℚ => 1 < b - a) (acceptedTimestamps s.trace))
    (hl : ∀ t ∈ (acceptedTimestamps s.trace).getLast?, t = s.last_captured_timestamp) :
    List.Chain' (fun a b : ℚ => 1 < b - a)
      (acceptedTimestamps (accumLoop cfg s ins).state.trace) :=
  (accumLoop_induction cfg
    (fun t => List.Chain' (fun a b : ℚ => 1 < b - a) (acceptedTimestamps t.trace) ∧
      ∀ x ∈ (acceptedTimestamps t.trace).getLast?, x = t.last_captured_timestamp)
    (fun t i _ ht => accumBody_spacing cfg t i ht.1 ht.2)
    ins s ⟨hc, hl⟩).1

/-- What the loop adds to the trace: control events and acceptances. -/
theorem accumLoop_trace (cfg : Config) (ins : List AccumInput) (s : State) :
    ∃ d, (accumLoop cfg s ins).state.trace = s.trace ++ d ∧
      ∀ e ∈ d, e.isControl = true ∨ ∃ t, e = Event.accepted t :=
  accumLoop_induction cfg
    (fun t => ∃ d, t.trace = s.trace ++ d ∧
      ∀ e ∈ d, e.isControl = true ∨ ∃ x, e = Event.accepted x)
    (fun t i _ ht => by
      obtain ⟨d, hd, hall⟩ := ht
      rcases accumBody_cases cfg t i with ⟨_, h⟩ | ⟨_, _, _, h⟩ | ⟨_, _, h⟩ <;> rw [h]
      · refine ⟨d ++ [Event.pullFrame], by simp [State.log, hd], ?_⟩
        intro e he
        rcases List.mem_append.1 he with he | he
        · exact hall e he
        · simp only [List.mem_singleton] at he
          subst he
          exact Or.inl rfl
      · refine ⟨d ++ [Event.pullFrame, Event.findChessboardCorners,
          Event.accepted i.timestamp, Event.imshow "Working Frame", Event.waitKey],
          by simp [hd], ?_⟩
        intro e he
        rcases List.mem_append.1 he with he | he
        · exact hall e he
        · simp only [List.mem_cons, List.mem_singleton, List.not_mem_nil, or_false] at he
          rcases he with he | he | he | he | he <;> subst he
          · exact Or.inl rfl
          · exact Or.inl rfl
          · exact Or.inr ⟨_, rfl⟩
          · exact Or.inl rfl
          · exact Or.inl rfl
      · refine ⟨d ++ [Event.pullFrame, Event.findChessboardCorners,
          Event.imshow "Working Frame", Event.waitKey], by simp [hd], ?_⟩
        intro e he
        rcases List.mem_append.1 he with he | he
        · exact hall e he
        · simp only [List.mem_cons, List.mem_singleton, List.not_mem_nil, or_false] at he
          rcases he with he | he | he | he <;> subst he <;> exact Or.inl rfl)
    ins s ⟨[], by simp, by simp⟩

/-! ## Live undistort -/

/-- The live loop only adds control events, changes nothing else, and is
either still running or finished. -/
theorem liveLoop_shape :
    ∀ (ins : List LiveInput) (s : State),
      ∃ d, (liveLoop s ins).1 = { s with trace := s.trace ++ d } ∧
        (∀ e ∈ d, e.isControl = true) ∧
        ((liveLoop s ins).2 = Phase.liveUndistort ∨ (liveLoop s ins).2 = Phase.finished) := by
  intro ins
  induction ins with
  | nil =>
    intro s
    exact ⟨[], by simp [liveLoop], by simp, Or.inl rfl⟩
  | cons i rest ih =>
    intro s
    by_cases hq : i.key = 'q'
    · refine ⟨[Event.pullFrame, Event.imshow "Distorted Image", Event.undistort,
        Event.imshow "Calibrated Image", Event.waitKey, Event.destroyAllWindows,
        Event.cout "Done."], by simp [liveLoop, liveBody, hq, State.log], ?_,
        Or.inr (by simp [liveLoop, liveBody, hq])⟩
      intro e he
      simp only [List.mem_cons, List.mem_singleton, List.not_mem_nil, or_false] at he
      rcases he with he | he | he | he | he | he | he <;> subst he <;> rfl
    · obtain ⟨d, hd, hall, hph⟩ := ih
        (((((s.log Event.pullFrame).log (Event.imshow "Distorted Image")).log
          Event.undistort).log (Event.imshow "Calibrated Image")).log Event.waitKey)
      refine ⟨[Event.pullFrame, Event.imshow "Distorted Image", Event.undistort,
        Event.imshow "Calibrated Image", Event.waitKey] ++ d, ?_, ?_, ?_⟩
      · simp only [liveLoop, liveBody, hq, if_false]
        rw [hd]
        simp [State.log]
      · intro e he
        rcases List.mem_append.1 he with he | he
        · simp only [List.mem_cons, List.mem_singleton, List.not_mem_nil, or_false] at he
          rcases he with he | he | he | he | he <;> subst he <;> rfl
        · exact hall e he
      · simpa [liveLoop, liveBody, hq] using hph

/-- After mode selection the controller always goes into the live loop; it
only adds control events, the first of which close the accumulation window
and open the two live windows, and it warns when a matrix is empty. -/
theorem afterModeSelection_shape (env : Env) (s : State) :
    ∃ d, (afterModeSelection env s).1 =
        { s with trace := s.trace ++ ([Event.destroyWindow "Working Frame",
          Event.namedWindow "Calibrated Image", Event.namedWindow "Distorted Image"] ++ d) } ∧
      (∀ e ∈ d, e.isControl = true) ∧
      ((afterModeSelection env s).2 = Phase.liveUndistort ∨
        (afterModeSelection env s).2 = Phase.finished) ∧
      ((s.intrinsic_matrix.empty = true ∨ s.distortion_coefficients.empty = true) →
        Event.cout "Calibration data is unavailable" ∈ d) := by
  by_cases hw : (s.intrinsic_matrix.empty || s.distortion_coefficients.empty) = true
  · obtain ⟨d, hd, hall, hph⟩ := liveLoop_shape env.liveInputs
      ((((s.log (Event.destroyWindow "Working Frame")).log
        (Event.namedWindow "Calibrated Image")).log
        (Event.namedWindow "Distorted Image")).log
        (Event.cout "Calibration data is unavailable"))
    refine ⟨Event.cout "Calibration data is unavailable" :: d, ?_, ?_, ?_, ?_⟩
    · simp only [afterModeSelection, State.log] at hd ⊢
      simp only [hw, if_true]
      rw [hd]
      simp
    · intro e he
      rcases List.mem_cons.1 he with he | he
      · subst he; rfl
      · exact hall e he
    · simpa [afterModeSelection, State.log, hw] using hph
    · intro _
      exact List.mem_cons_self _ _
  · obtain ⟨d, hd, hall, hph⟩ := liveLoop_shape env.liveInputs
      (((s.log (Event.destroyWindow "Working Frame")).log
        (Event.namedWindow "Calibrated Image")).log
        (Event.namedWindow "Distorted Image"))
    refine ⟨d, ?_, hall, ?_, ?_⟩
    · simp only [afterModeSelection, State.log] at hd ⊢
      simp only [hw, Bool.false_eq_true, if_false]
      rw [hd]
      simp
    · simpa [afterModeSelection, State.log, hw] using hph
    · intro h
      exfalso
      apply hw
      rcases h with h | h <;> simp [h]

/-! ## Mode selection -/

theorem keyPolls_zero (s : State) : keyPolls s 0 = s := by
  simp [keyPolls]

theorem keyPolls_log (s : State) (k : Nat) :
    keyPolls (s.log Event.waitKey) k = keyPolls s (k + 1) := by
  simp [keyPolls, State.log, List.replicate_succ]

theorem keyPolls_succ (s : State) (k : Nat) :
    (keyPolls s k).log Event.waitKey = keyPolls s (k + 1) := by
  simp [keyPolls, State.log, List.replicate_succ']

/-- Keys other than `'1'`, `'2'`, `'3'` are polled and ignored. -/
theorem modeSelection_skip (cfg : Config) (env : Env) (rest : List Char) :
    ∀ (pre : List Char) (s : State), (∀ c ∈ pre, isModeKey c = false) →
      modeSelection cfg env s (pre ++ rest) =
        modeSelection cfg env (keyPolls s pre.length) rest := by
  intro pre
  induction pre with
  | nil =>
    intro s _
    simp [keyPolls_zero]
  | cons c pre ih =>
    intro s hpre
    have hc : isModeKey c = false := hpre c (List.mem_cons_self _ _)
    simp only [isModeKey, Bool.or_eq_false_iff, beq_eq_false_iff_ne, ne_eq] at hc
    simp only [List.cons_append, modeSelection, hc.1.1, hc.1.2, hc.2, if_false,
      List.length_cons]
    exact (ih (s.log Event.waitKey) (fun x hx => hpre x (List.mem_cons_of_mem _ hx))).trans
      (by rw [keyPolls_log])

/-- The mode-selection loop polls some keys and then either is still waiting
or has gone into exactly one of the three branches. -/
theorem modeSelection_cases (cfg : Config) (env : Env) :
    ∀ (keys : List Char) (s : State), ∃ k,
      modeSelection cfg env s keys = (keyPolls s k, Phase.awaitingMode) ∨
      modeSelection cfg env s keys = generate cfg env (keyPolls s k) ∨
      modeSelection cfg env s keys =
        (loadPreset "bad_calib.xml" env.bad_calib (keyPolls s k), Phase.ready) ∨
      modeSelection cfg env s keys =
        (loadPreset "good_calib.xml" env.good_calib (keyPolls s k), Phase.ready) := by
  intro keys
  induction keys with
  | nil =>
    intro s
    exact ⟨0, Or.inl (by simp [modeSelection, keyPolls_zero])⟩
  | cons c rest ih =>
    intro s
    by_cases h1 : c = '1'
    · exact ⟨1, Or.inr (Or.inl (by
        simp [modeSelection, h1, ← keyPolls_log, keyPolls_zero]))⟩
    · by_cases h2 : c = '2'
      · exact ⟨1, Or.inr (Or.inr (Or.inl (by
          simp [modeSelection, h2, ← keyPolls_log, keyPolls_zero])))⟩
      · by_cases h3 : c = '3'
        · exact ⟨1, Or.inr (Or.inr (Or.inr (by
            simp [modeSelection, h3, ← keyPolls_log, keyPolls_zero])))⟩
        · obtain ⟨k, hk⟩ := ih (s.log Event.waitKey)
          refine ⟨k + 1, ?_⟩
          simp only [modeSelection, h1, h2, h3, if_false]
          rw [← keyPolls_log]
          exact hk

/-- The shape of a whole session. -/
theorem main_shape (cfg : Config) (env : Env) :
    ∃ k,
      main cfg env = (keyPolls (startup env) k, Phase.awaitingMode) ∨
      (∃ s1, accumLoop cfg (keyPolls (startup env) k) env.accumInputs = LoopResult.running s1 ∧
        main cfg env = (s1, Phase.accumulating)) ∨
      (∃ s1, (accumLoop cfg (keyPolls (startup env) k) env.accumInputs
            = LoopResult.exitedGuard s1 ∨
          accumLoop cfg (keyPolls (startup env) k) env.accumInputs
            = LoopResult.exitedBreak s1) ∧
        main cfg env = afterModeSelection env (solveAndPersist env s1)) ∨
      main cfg env = afterModeSelection env
        (loadPreset "bad_calib.xml" env.bad_calib (keyPolls (startup env) k)) ∨
      main cfg env = afterModeSelection env
        (loadPreset "good_calib.xml" env.good_calib (keyPolls (startup env) k)) := by
  obtain ⟨k, hk⟩ := modeSelection_cases cfg env env.modeKeys (startup env)
  refine ⟨k, ?_⟩
  rcases hk with hk | hk | hk | hk
  · left
    simp [main, hk]
  · right
    rw [main, hk, generate]
    cases hl : accumLoop cfg (keyPolls (startup env) k) env.accumInputs with
    | running s1 => exact Or.inl ⟨s1, rfl, rfl⟩
    | exitedGuard s1 => exact Or.inr (Or.inl ⟨s1, Or.inl rfl, rfl⟩)
    | exitedBreak s1 => exact Or.inr (Or.inl ⟨s1, Or.inr rfl, rfl⟩)
  · right; right; right; left
    simp [main, hk]
  · right; right; right; right
    simp [main, hk]

/-! ## Fields across the phases -/

theorem startup_fields (env : Env) :
    (startup env).image_points = [] ∧ (startup env).object_points = [] ∧
    (startup env).last_captured_timestamp = 0 ∧
    (startup env).intrinsic_matrix = [] ∧ (startup env).distortion_coefficients = [] ∧
    ∀ e ∈ (startup env).trace, e.isControl = true := by
  cases h : env.cameraOpened
  · refine ⟨?_, ?_, ?_, ?_, ?_, ?_⟩ <;>
      simp [startup, State.log, State.init, h, Event.isControl]
  · refine ⟨?_, ?_, ?_, ?_, ?_, ?_⟩ <;>
      simp [startup, State.log, State.init, h, Event.isControl]

theorem keyPolls_fields (s : State) (k : Nat) :
    (keyPolls s k).image_points = s.image_points ∧
    (keyPolls s k).object_points = s.object_points ∧
    (keyPolls s k).last_captured_timestamp = s.last_captured_timestamp ∧
    (keyPolls s k).intrinsic_matrix = s.intrinsic_matrix ∧
    (keyPolls s k).distortion_coefficients = s.distortion_coefficients ∧
    (keyPolls s k).trace = s.trace ++ List.replicate k Event.waitKey :=
  ⟨rfl, rfl, rfl, rfl, rfl, rfl⟩

/-- The state in which a branch is entered: nothing but control events so
far, no sample, no matrix. -/
theorem entry_fields (env : Env) (k : Nat) :
    (keyPolls (startup env) k).image_points = [] ∧
    (keyPolls (startup env) k).object_points = [] ∧
    (keyPolls (startup env) k).last_captured_timestamp = 0 ∧
    (keyPolls (startup env) k).intrinsic_matrix = [] ∧
    (keyPolls (startup env) k).distortion_coefficients = [] ∧
    ∀ e ∈ (keyPolls (startup env) k).trace, e.isControl = true := by
  obtain ⟨h1, h2, h3, h4, h5, h6⟩ := startup_fields env
  refine ⟨h1, h2, h3, h4, h5, ?_⟩
  intro e he
  rcases List.mem_append.1 he with he | he
  · exact h6 e he
  · rw [List.eq_of_mem_replicate he]
    rfl

theorem solveAndPersist_trace (env : Env) (s : State) :
    (solveAndPersist env s).trace =
      s.trace ++ [Event.calibrateCamera s.object_points s.image_points s.frame_size,
        Event.cout "Reprojection error is: ", Event.fsWrite "calibration_data.xml"] := by
  simp [solveAndPersist, State.log]

theorem solveAndPersist_fields (env : Env) (s : State) :
    (solveAndPersist env s).image_points = s.image_points ∧
    (solveAndPersist env s).object_points = s.object_points ∧
    (solveAndPersist env s).last_captured_timestamp = s.last_captured_timestamp :=
  ⟨rfl, rfl, rfl⟩

theorem loadPreset_fields (path : String) (file : Mat × Mat) (s : State) :
    (loadPreset path file s).image_points = s.image_points ∧
    (loadPreset path file s).object_points = s.object_points ∧
    (loadPreset path file s).last_captured_timestamp = s.last_captured_timestamp ∧
    (loadPreset path file s).intrinsic_matrix = file.1 ∧
    (loadPreset path file s).distortion_coefficients = file.2 ∧
    (loadPreset path file s).trace = s.trace ++ [Event.fsRead path] :=
  ⟨rfl, rfl, rfl, rfl, rfl, rfl⟩

theorem afterModeSelection_fields (env : Env) (s : State) :
    (afterModeSelection env s).1.image_points = s.image_points ∧
    (afterModeSelection env s).1.object_points = s.object_points ∧
    (afterModeSelection env s).1.last_captured_timestamp = s.last_captured_timestamp ∧
    (afterModeSelection env s).1.intrinsic_matrix = s.intrinsic_matrix ∧
    (afterModeSelection env s).1.distortion_coefficients = s.distortion_coefficients := by
  obtain ⟨d, hd, _⟩ := afterModeSelection_shape env s
  rw [hd]
  exact ⟨rfl, rfl, rfl, rfl, rfl⟩

/-- The samples a session ends with are those of its accumulation loop, or
none at all. -/
theorem main_samples (cfg : Config) (env : Env) :
    ((main cfg env).1.image_points = [] ∧ (main cfg env).1.object_points = []) ∨
    ∃ k, (main cfg env).1.image_points =
        (accumLoop cfg (keyPolls (startup env) k) env.accumInputs).state.image_points ∧
      (main cfg env).1.object_points =
        (accumLoop cfg (keyPolls (startup env) k) env.accumInputs).state.object_points := by
  obtain ⟨k, hk⟩ := main_shape cfg env
  obtain ⟨e1, e2, _⟩ := entry_fields env k
  rcases hk with h | ⟨s1, hl, h⟩ | ⟨s1, hl, h⟩ | h | h
  · left; rw [h]; exact ⟨e1, e2⟩
  · right; refine ⟨k, ?_⟩; rw [h, hl]; exact ⟨rfl, rfl⟩
  · right
    refine ⟨k, ?_⟩
    rw [h]
    obtain ⟨a1, a2, _⟩ := afterModeSelection_fields env (solveAndPersist env s1)
    rw [a1, a2]
    rcases hl with hl | hl <;> rw [hl] <;> exact ⟨rfl, rfl⟩
  · left
    rw [h]
    obtain ⟨a1, a2, _⟩ := afterModeSelection_fields env
      (loadPreset "bad_calib.xml" env.bad_calib (keyPolls (startup env) k))
    obtain ⟨l1, l2, _⟩ := loadPreset_fields "bad_calib.xml" env.bad_calib
      (keyPolls (startup env) k)
    rw [a1, a2, l1, l2]
    exact ⟨e1, e2⟩
  · left
    rw [h]
    obtain ⟨a1, a2, _⟩ := afterModeSelection_fields env
      (loadPreset "good_calib.xml" env.good_calib (keyPolls (startup env) k))
    obtain ⟨l1, l2, _⟩ := loadPreset_fields "good_calib.xml" env.good_calib
      (keyPolls (startup env) k)
    rw [a1, a2, l1, l2]
    exact ⟨e1, e2⟩

/-- Every world-point list a session holds is the synthesized one. -/
theorem main_object_points (cfg : Config) (env : Env) :
    ∀ o ∈ (main cfg env).1.object_points, o = synthObjectPoints cfg := by
  rcases main_samples cfg env with ⟨_, h⟩ | ⟨k, _, h⟩
  · rw [h]
    intro o ho
    cases ho
  · rw [h]
    apply accumLoop_object_points
    rw [(entry_fields env k).2.1]
    intro o ho
    cases ho

/-- The only solver call of a session is the one made by branch `'1'` on the
samples its accumulation loop was left with. -/
theorem main_solver_event (cfg : Config) (env : Env) (ops : List (List Point3f))
    (ips : List (List Point2f)) (sz : Size)
    (h : Event.calibrateCamera ops ips sz ∈ (main cfg env).1.trace) :
    ∃ k s1,
      (accumLoop cfg (keyPolls (startup env) k) env.accumInputs = LoopResult.exitedGuard s1 ∨
        accumLoop cfg (keyPolls (startup env) k) env.accumInputs
          = LoopResult.exitedBreak s1) ∧
      ops = s1.object_points ∧ ips = s1.image_points ∧ sz = s1.frame_size := by
  obtain ⟨k, hk⟩ := main_shape cfg env
  have hentry := (entry_fields env k).2.2.2.2.2
  have hloop : ∀ s1, (accumLoop cfg (keyPolls (startup env) k) env.accumInputs).state = s1 →
      Event.calibrateCamera ops ips sz ∉ s1.trace := by
    intro s1 hs1 hmem
    obtain ⟨d, hd, hall⟩ := accumLoop_trace cfg env.accumInputs (keyPolls (startup env) k)
    rw [hs1] at hd
    rw [hd] at hmem
    rcases List.mem_append.1 hmem with hm | hm
    · have := hentry _ hm
      simp [Event.isControl] at this
    · rcases hall _ hm with hc | ⟨t, ht⟩
      · simp [Event.isControl] at hc
      · cases ht
  rcases hk with hm | ⟨s1, hl, hm⟩ | ⟨s1, hl, hm⟩ | hm | hm
  · rw [hm] at h
    have := hentry _ h
    simp [Event.isControl] at this
  · rw [hm] at h
    exact absurd h (hloop s1 (by rw [hl]; rfl))
  · rw [hm] at h
    obtain ⟨d, hd, hall, _⟩ := afterModeSelection_shape env (solveAndPersist env s1)
    rw [hd] at h
    simp only [solveAndPersist_trace, List.mem_append, List.mem_cons, List.mem_singleton,
      List.not_mem_nil, or_false] at h
    have hs1 : (accumLoop cfg (keyPolls (startup env) k) env.accumInputs).state = s1 := by
      rcases hl with hl | hl <;> rw [hl] <;> rfl
    rcases h with (h | h | h | h) | (h | h | h) | h
    · exact absurd h (hloop s1 hs1)
    · cases h
      exact ⟨k, s1, hl, rfl, rfl, rfl⟩
    · cases h
    · cases h
    · cases h
    · cases h
    · cases h
    · have := hall _ h
      simp [Event.isControl] at this
  · rw [hm] at h
    obtain ⟨d, hd, hall, _⟩ := afterModeSelection_shape env
      (loadPreset "bad_calib.xml" env.bad_calib (keyPolls (startup env) k))
    rw [hd] at h
    simp only [(loadPreset_fields _ _ _).2.2.2.2.2, List.mem_append, List.mem_cons,
      List.mem_singleton, List.not_mem_nil, or_false] at h
    rcases h with (h | h) | (h | h | h) | h
    · have := hentry _ h
      simp [Event.isControl] at this
    · cases h
    · cases h
    · cases h
    · cases h
    · have := hall _ h
      simp [Event.isControl] at this
  · rw [hm] at h
    obtain ⟨d, hd, hall, _⟩ := afterModeSelection_shape env
      (loadPreset "good_calib.xml" env.good_calib (keyPolls (startup env) k))
    rw [hd] at h
    simp only [(loadPreset_fields _ _ _).2.2.2.2.2, List.mem_append, List.mem_cons,
      List.mem_singleton, List.not_mem_nil, or_false] at h
    rcases h with (h | h) | (h | h | h) | h
    · have := hentry _ h
      simp [Event.isControl] at this
    · cases h
    · cases h
    · cases h
    · cases h
    · have := hall _ h
      simp [Event.isControl] at this

/-- A run of empty frames from a state under the loop test only pulls frames. -/
theorem accumLoop_all_empty (cfg : Config) :
    ∀ (ins : List AccumInput) (s : State),
      s.image_points.length < cfg.number_of_images →
      (∀ i ∈ ins, i.frame.empty = true) →
      accumLoop cfg s ins = LoopResult.running
        { s with trace := s.trace ++ List.replicate ins.length Event.pullFrame } := by
  intro ins
  induction ins with
  | nil =>
    intro s hg _
    simp [accumLoop, hg]
  | cons i rest ih =>
    intro s hg hall
    have he : i.frame.empty = true := hall i (List.mem_cons_self _ _)
    simp only [accumLoop, hg, if_true, accumBody_empty cfg s i he]
    rw [ih (s.log Event.pullFrame) hg (fun j hj => hall j (List.mem_cons_of_mem _ hj))]
    simp [State.log, List.replicate_succ]

/-! ## Sessions by their keys -/

theorem modeSelection_key1 (cfg : Config) (env : Env) (pre post : List Char) (s : State)
    (hpre : ∀ c ∈ pre, isModeKey c = false) :
    modeSelection cfg env s (pre ++ '1' :: post) =
      generate cfg env (keyPolls s (pre.length + 1)) := by
  rw [modeSelection_skip cfg env _ pre s hpre]
  simp [modeSelection, keyPolls_succ]

theorem modeSelection_key2 (cfg : Config) (env : Env) (pre post : List Char) (s : State)
    (hpre : ∀ c ∈ pre, isModeKey c = false) :
    modeSelection cfg env s (pre ++ '2' :: post) =
      (loadPreset "bad_calib.xml" env.bad_calib (keyPolls s (pre.length + 1)),
        Phase.ready) := by
  rw [modeSelection_skip cfg env _ pre s hpre]
  simp [modeSelection, keyPolls_succ]

theorem modeSelection_key3 (cfg : Config) (env : Env) (pre post : List Char) (s : State)
    (hpre : ∀ c ∈ pre, isModeKey c = false) :
    modeSelection cfg env s (pre ++ '3' :: post) =
      (loadPreset "good_calib.xml" env.good_calib (keyPolls s (pre.length + 1)),
        Phase.ready) := by
  rw [modeSelection_skip cfg env _ pre s hpre]
  simp [modeSelection, keyPolls_succ]

/-- A session whose first mode key is `'1'` and whose accumulation loop is
left, either way, goes on to solve, persist and enter the live phase. -/
theorem main_key1_exited (cfg : Config) (env : Env) (pre post : List Char) (s1 : State)
    (hkeys : env.modeKeys = pre ++ '1' :: post)
    (hpre : ∀ c ∈ pre, isModeKey c = false)
    (hl : accumLoop cfg (keyPolls (startup env) (pre.length + 1)) env.accumInputs
          = LoopResult.exitedGuard s1 ∨
        accumLoop cfg (keyPolls (startup env) (pre.length + 1)) env.accumInputs
          = LoopResult.exitedBreak s1) :
    main cfg env = afterModeSelection env (solveAndPersist env s1) := by
  rw [main, hkeys, modeSelection_key1 cfg env pre post _ hpre, generate]
  rcases hl with hl | hl <;> rw [hl]

/-- A session whose first mode key is `'1'` and whose accumulation loop is
still running stays in the accumulation phase. -/
theorem main_key1_running (cfg : Config) (env : Env) (pre post : List Char) (s1 : State)
    (hkeys : env.modeKeys = pre ++ '1' :: post)
    (hpre : ∀ c ∈ pre, isModeKey c = false)
    (hl : accumLoop cfg (keyPolls (startup env) (pre.length + 1)) env.accumInputs
      = LoopResult.running s1) :
    main cfg env = (s1, Phase.accumulating) := by
  rw [main, hkeys, modeSelection_key1 cfg env pre post _ hpre, generate, hl]

theorem main_key2 (cfg : Config) (env : Env) (pre post : List Char)
    (hkeys : env.modeKeys = pre ++ '2' :: post)
    (hpre : ∀ c ∈ pre, isModeKey c = false) :
    main cfg env = afterModeSelection env
      (loadPreset "bad_calib.xml" env.bad_calib (keyPolls (startup env) (pre.length + 1))) := by
  rw [main, hkeys, modeSelection_key2 cfg env pre post _ hpre]

theorem main_key3 (cfg : Config) (env : Env) (pre post : List Char)
    (hkeys : env.modeKeys = pre ++ '3' :: post)
    (hpre : ∀ c ∈ pre, isModeKey c = false) :
    main cfg env = afterModeSelection env
      (loadPreset "good_calib.xml" env.good_calib
        (keyPolls (startup env) (pre.length + 1))) := by
  rw [main, hkeys, modeSelection_key3 cfg env pre post _ hpre]

/-! ## Observations that ignore control events -/

theorem filterMap_control {α : Type} (f : Event → Option α)
    (hf : ∀ e, e.isControl = true → f e = none) (d : List Event)
    (hd : ∀ e ∈ d, e.isControl = true) : d.filterMap f = [] := by
  induction d with
  | nil => rfl
  | cons e rest ih =>
    rw [List.filterMap_cons, hf e (hd e (List.mem_cons_self _ _))]
    exact ih (fun x hx => hd x (List.mem_cons_of_mem _ hx))

/-- An observation that ignores control events and acceptances sees nothing
of the accumulation loop. -/
theorem accumLoop_filterMap {α : Type} (f : Event → Option α)
    (hf : ∀ e, e.isControl = true → f e = none) (hacc : ∀ t, f (Event.accepted t) = none)
    (cfg : Config) (ins : List AccumInput) (s : State) :
    (accumLoop cfg s ins).state.trace.filterMap f = s.trace.filterMap f := by
  obtain ⟨d, hd, hall⟩ := accumLoop_trace cfg ins s
  rw [hd, List.filterMap_append]
  have : d.filterMap f = [] := by
    clear hd
    induction d with
    | nil => rfl
    | cons e rest ih =>
      have he : f e = none := by
        rcases hall e (List.mem_cons_self _ _) with h | ⟨t, h⟩
        · exact hf e h
        · rw [h]; exact hacc t
      rw [List.filterMap_cons, he]
      exact ih (fun x hx => hall x (List.mem_cons_of_mem _ hx))
  rw [this, List.append_nil]

/-- What an observation that ignores control events sees after mode
selection is what it saw before. -/
theorem afterModeSelection_filterMap {α : Type} (f : Event → Option α)
    (hf : ∀ e, e.isControl = true → f e = none) (env : Env) (s : State) :
    (afterModeSelection env s).1.trace.filterMap f = s.trace.filterMap f := by
  obtain ⟨d, hd, hall, _⟩ := afterModeSelection_shape env s
  rw [hd]
  have hall1 : ∀ e ∈ [Event.destroyWindow "Working Frame",
      Event.namedWindow "Calibrated Image", Event.namedWindow "Distorted Image"] ++ d,
      e.isControl = true := by
    intro e he
    rcases List.mem_append.1 he with he | he
    · simp only [List.mem_cons, List.mem_singleton, List.not_mem_nil, or_false] at he
      rcases he with he | he | he <;> subst he <;> rfl
    · exact hall e he
  show (s.trace ++ _).filterMap f = _
  rw [List.filterMap_append, filterMap_control f hf _ hall1, List.append_nil]

theorem entry_filterMap {α : Type} (f : Event → Option α)
    (hf : ∀ e, e.isControl = true → f e = none) (env : Env) (k : Nat) :
    (keyPolls (startup env) k).trace.filterMap f = [] :=
  filterMap_control f hf _ (entry_fields env k).2.2.2.2.2

theorem acceptedOf_control (e : Event) (h : e.isControl = true) : acceptedOf e = none := by
  cases e <;> simp_all [Event.isControl, acceptedOf]

theorem solverCallOf_control (e : Event) (h : e.isControl = true) : solverCallOf e = none := by
  cases e <;> simp_all [Event.isControl, solverCallOf]

theorem branchOf_control (e : Event) (h : e.isControl = true) : branchOf e = none := by
  cases e <;> simp_all [Event.isControl, branchOf]

/-- The accepted timestamps of a session are those of its accumulation loop. -/
theorem main_accepted (cfg : Config) (env : Env) :
    acceptedTimestamps (main cfg env).1.trace = [] ∨
    ∃ k, acceptedTimestamps (main cfg env).1.trace =
      acceptedTimestamps (accumLoop cfg (keyPolls (startup env) k) env.accumInputs).state.trace := by
  obtain ⟨k, hk⟩ := main_shape cfg env
  rcases hk with h | ⟨s1, hl, h⟩ | ⟨s1, hl, h⟩ | h | h
  · left
    rw [h]
    exact entry_filterMap acceptedOf acceptedOf_control env k
  · right
    exact ⟨k, by rw [h, hl]; rfl⟩
  · right
    refine ⟨k, ?_⟩
    have hs1 : (accumLoop cfg (keyPolls (startup env) k) env.accumInputs).state = s1 := by
      rcases hl with hl | hl <;> rw [hl] <;> rfl
    rw [h, hs1]
    unfold acceptedTimestamps
    rw [afterModeSelection_filterMap acceptedOf acceptedOf_control, solveAndPersist_trace,
      List.filterMap_append]
    simp [acceptedOf]
  · left
    rw [h]
    unfold acceptedTimestamps
    rw [afterModeSelection_filterMap acceptedOf acceptedOf_control,
      (loadPreset_fields _ _ _).2.2.2.2.2, List.filterMap_append,
      entry_filterMap acceptedOf acceptedOf_control]
    simp [acceptedOf]
  · left
    rw [h]
    unfold acceptedTimestamps
    rw [afterModeSelection_filterMap acceptedOf acceptedOf_control,
      (loadPreset_fields _ _ _).2.2.2.2.2, List.filterMap_append,
      entry_filterMap acceptedOf acceptedOf_control]
    simp [acceptedOf]

/-- There are as many accepted timestamps as samples. -/
theorem accumLoop_accepted_count (cfg : Config) (ins : List AccumInput) (s : State)
    (hs : (acceptedTimestamps s.trace).length = s.image_points.length) :
    (acceptedTimestamps (accumLoop cfg s ins).state.trace).length =
      (accumLoop cfg s ins).state.image_points.length :=
  accumLoop_induction cfg
    (fun t => (acceptedTimestamps t.trace).length = t.image_points.length)
    (fun t i _ ht => by
      rcases accumBody_cases cfg t i with ⟨_, h⟩ | ⟨_, _, _, h⟩ | ⟨_, _, h⟩ <;> rw [h]
      · simpa [State.log, acceptedTimestamps_append, acceptedTimestamps, acceptedOf] using ht
      · simpa [acceptedTimestamps_append, acceptedTimestamps, acceptedOf] using ht
      · simpa [acceptedTimestamps_append, acceptedTimestamps, acceptedOf] using ht)
    ins s hs

/-- Gaps of more than one second are gaps of at least one second, and make
the timestamps strictly increasing. -/
theorem spacing_weaken (l : List ℚ) (h : List.Chain' (fun a b : ℚ => 1 < b - a) l) :
    List.Chain' (fun a b : ℚ => b - a ≥ 1) l ∧ List.Pairwise (fun a b : ℚ => a < b) l := by
  refine ⟨h.imp (fun a b hab => le_of_lt hab), ?_⟩
  have hc : List.Chain' (fun a b : ℚ => a < b) l := h.imp (fun a b hab => by linarith)
  exact List.chain'_iff_pairwise.1 hc

/-- The branches a session ran: none while it has not got past mode
selection, exactly one once it is in the live phase. -/
theorem main_branches (cfg : Config) (env : Env) :
    (branchesRun (main cfg env).1.trace = [] ∧
      ((main cfg env).2 = Phase.awaitingMode ∨ (main cfg env).2 = Phase.accumulating)) ∨
    ((∃ b, branchesRun (main cfg env).1.trace = [b]) ∧
      ((main cfg env).2 = Phase.liveUndistort ∨ (main cfg env).2 = Phase.finished)) := by
  obtain ⟨k, hk⟩ := main_shape cfg env
  have hentry := entry_filterMap branchOf branchOf_control env k
  rcases hk with h | ⟨s1, hl, h⟩ | ⟨s1, hl, h⟩ | h | h
  · left
    rw [h]
    exact ⟨hentry, Or.inl rfl⟩
  · left
    rw [h]
    refine ⟨?_, Or.inr rfl⟩
    have := accumLoop_filterMap branchOf branchOf_control (fun _ => rfl) cfg env.accumInputs
      (keyPolls (startup env) k)
    rw [hl, hentry] at this
    exact this
  · right
    rw [h]
    have hs1 : (accumLoop cfg (keyPolls (startup env) k) env.accumInputs).state = s1 := by
      rcases hl with hl | hl <;> rw [hl] <;> rfl
    have := accumLoop_filterMap branchOf branchOf_control (fun _ => rfl) cfg env.accumInputs
      (keyPolls (startup env) k)
    rw [hs1, hentry] at this
    refine ⟨⟨Branch.solveAndPersist, ?_⟩, (afterModeSelection_shape env _).choose_spec.2.2.1⟩
    unfold branchesRun
    rw [afterModeSelection_filterMap branchOf branchOf_control, solveAndPersist_trace,
      List.filterMap_append, this]
    simp [branchOf]
  · right
    rw [h]
    refine ⟨⟨Branch.loadBad, ?_⟩, (afterModeSelection_shape env _).choose_spec.2.2.1⟩
    unfold branchesRun
    rw [afterModeSelection_filterMap branchOf branchOf_control,
      (loadPreset_fields _ _ _).2.2.2.2.2, List.filterMap_append, hentry]
    simp [branchOf]
  · right
    rw [h]
    refine ⟨⟨Branch.loadGood, ?_⟩, (afterModeSelection_shape env _).choose_spec.2.2.1⟩
    unfold branchesRun
    rw [afterModeSelection_filterMap branchOf branchOf_control,
      (loadPreset_fields _ _ _).2.2.2.2.2, List.filterMap_append, hentry]
    simp [branchOf]

/-! # The claims -/

/-- C5: for a board of `W x H` interior corners the world-point list
synthesized for an accepted sample has length `W * H` and its `j`-th point
is `(floor (j / W), j mod W, 0)`; this is the list stored with every accepted
sample, in every session; for `W = 9`, `H = 6` the point at index 10 is
`(1, 1, 0)`. -/
theorem C5_world_points (cfg : Config) :
    ((synthObjectPoints cfg).length = cfg.board_width * cfg.board_height ∧
      ∀ j, j < cfg.board_width * cfg.board_height →
        (synthObjectPoints cfg)[j]? =
          some ⟨((⌊(j : ℚ) / (cfg.board_width : ℚ)⌋ : ℤ) : ℚ),
            ((j % cfg.board_width : ℕ) : ℚ), 0⟩) ∧
    (∀ (s : State) (i : AccumInput), i.frame.empty = false → i.found = true →
      i.timestamp - s.last_captured_timestamp > 1 →
      (accumBody cfg s i).1.object_points = s.object_points ++ [synthObjectPoints cfg]) ∧
    (∀ (env : Env), ∀ opts ∈ (main cfg env).1.object_points, opts = synthObjectPoints cfg) ∧
    (synthObjectPoints defaultConfig)[10]? = some ⟨1, 1, 0⟩ := by
  refine ⟨⟨synthObjectPoints_length cfg, fun j hj => synthObjectPoints_get cfg j hj⟩, ?_,
    main_object_points cfg, ?_⟩
  · intro s i he hf ht
    rw [accumBody_accept cfg s i he hf ht]
  · rw [synthObjectPoints_get defaultConfig 10 (by decide)]
    simp only [gridPoint, defaultConfig, Rat.floor_natCast_div_natCast]
    norm_num

/-- The full run of the compiled configuration stores twenty world-point
lists, each the synthesized one of 54 points. -/
theorem C5_world_points_witness :
    (main defaultConfig fullRun).1.object_points.length = 20 ∧
    (synthObjectPoints defaultConfig).length = 9 * 6 ∧
    ∀ opts ∈ (main defaultConfig fullRun).1.object_points,
      opts = synthObjectPoints defaultConfig :=
  ⟨by decide!, (C5_world_points defaultConfig).1.1,
    (C5_world_points defaultConfig).2.2.1 fullRun⟩

/-- C4 as stated fails on the boundary: with the board found in a non-empty
frame exactly one second after the last accepted timestamp (here the initial
0), the condition `timestamp - last_captured_timestamp >= 1` holds, yet the
sample is not accepted. -/
theorem C4_counterexample :
    (boardSeen 1 'x').frame.empty = false ∧ (boardSeen 1 'x').found = true ∧
    (boardSeen 1 'x').timestamp - State.init.last_captured_timestamp ≥ 1 ∧
    (accumBody defaultConfig State.init (boardSeen 1 'x')).1.image_points = [] ∧
    (accumBody defaultConfig State.init (boardSeen 1 'x')).1.last_captured_timestamp = 0 := by
  have hn : ¬ ((boardSeen 1 'x').found = true ∧
      (boardSeen 1 'x').timestamp - State.init.last_captured_timestamp > 1) := by
    norm_num [boardSeen, State.init]
  rw [accumBody_reject defaultConfig State.init (boardSeen 1 'x') (by decide) hn]
  refine ⟨by decide, rfl, ?_, rfl, rfl⟩
  norm_num [boardSeen, State.init]

/-- C4, amended: in an accumulation iteration with a non-empty frame in which
the corners are found and strictly more than 1 second has elapsed since the
last accepted sample (`timestamp - last_captured_timestamp > 1`, with
`last_captured_timestamp` initially 0), the sample is accepted: the sample
count grows by exactly one, the detected corners are the new last element of
`image_points`, and `last_captured_timestamp` becomes the current timestamp. -/
theorem C4_accept_after_more_than_one_second (cfg : Config) (s : State) (i : AccumInput)
    (he : i.frame.empty = false) (hf : i.found = true)
    (ht : i.timestamp - s.last_captured_timestamp > 1) :
    (accumBody cfg s i).1.image_points.length = s.image_points.length + 1 ∧
    (accumBody cfg s i).1.image_points = s.image_points ++ [i.corners] ∧
    (accumBody cfg s i).1.image_points.getLast? = some i.corners ∧
    (accumBody cfg s i).1.object_points = s.object_points ++ [synthObjectPoints cfg] ∧
    (accumBody cfg s i).1.last_captured_timestamp = i.timestamp ∧
    State.init.last_captured_timestamp = 0 := by
  rw [accumBody_accept cfg s i he hf ht]
  simp [State.init]

/-- The board seen 1.5 s into a fresh session is accepted. -/
theorem C4_accept_witness :
    (boardSeen (3 / 2) 'x').timestamp - State.init.last_captured_timestamp > 1 ∧
    (accumBody defaultConfig State.init (boardSeen (3 / 2) 'x')).1.image_points
      = [[⟨1, 1⟩]] ∧
    (accumBody defaultConfig State.init (boardSeen (3 / 2) 'x')).1.last_captured_timestamp
      = 3 / 2 :=
  have ht : (boardSeen (3 / 2) 'x').timestamp - State.init.last_captured_timestamp > 1 := by
    norm_num [boardSeen, State.init]
  ⟨ht,
    (C4_accept_after_more_than_one_second defaultConfig State.init (boardSeen (3 / 2) 'x')
      (by decide) rfl ht).2.1,
    (C4_accept_after_more_than_one_second defaultConfig State.init (boardSeen (3 / 2) 'x')
      (by decide) rfl ht).2.2.2.2.1⟩

/-- C9: an accumulation iteration whose frame is empty is skipped with the
session unchanged (`image_points`, `object_points`, `last_captured_timestamp`
are as before; the only event is the frame pull, so no detection and no
solver call), and the loop goes on to its next iteration; hence after any
number of consecutive empty frames from a fresh session the session holds no
sample and the loop is still running, and a session in generate mode that
only gets empty frames stays in the accumulation phase. -/
theorem C9_empty_frame_skipped (cfg : Config) (hN : 0 < cfg.number_of_images) :
    (∀ (s : State) (i : AccumInput), i.frame.empty = true →
      (accumBody cfg s i).2 = LoopCtl.next ∧
      (accumBody cfg s i).1.image_points = s.image_points ∧
      (accumBody cfg s i).1.object_points = s.object_points ∧
      (accumBody cfg s i).1.last_captured_timestamp = s.last_captured_timestamp ∧
      (accumBody cfg s i).1.trace = s.trace ++ [Event.pullFrame]) ∧
    (∀ (s : State) (i : AccumInput) (rest : List AccumInput),
      s.image_points.length < cfg.number_of_images → i.frame.empty = true →
      accumLoop cfg s (i :: rest) = accumLoop cfg (s.log Event.pullFrame) rest) ∧
    (∀ (ins : List AccumInput), (∀ i ∈ ins, i.frame.empty = true) →
      ∃ s1, accumLoop cfg State.init ins = LoopResult.running s1 ∧
        s1.image_points = [] ∧ s1.object_points = [] ∧ s1.last_captured_timestamp = 0 ∧
        s1.trace = List.replicate ins.length Event.pullFrame) ∧
    (∀ (env : Env) (pre post : List Char), env.modeKeys = pre ++ '1' :: post →
      (∀ c ∈ pre, isModeKey c = false) → (∀ i ∈ env.accumInputs, i.frame.empty = true) →
      (main cfg env).2 = Phase.accumulating ∧
      (main cfg env).1.image_points = [] ∧ (main cfg env).1.object_points = [] ∧
      (main cfg env).1.last_captured_timestamp = 0) := by
  refine ⟨?_, ?_, ?_, ?_⟩
  · intro s i he
    rw [accumBody_empty cfg s i he]
    exact ⟨rfl, rfl, rfl, rfl, rfl⟩
  · intro s i rest hg he
    simp only [accumLoop, hg, if_true, accumBody_empty cfg s i he]
  · intro ins hall
    refine ⟨_, accumLoop_all_empty cfg ins State.init (by simpa [State.init] using hN) hall,
      rfl, rfl, rfl, ?_⟩
    simp [State.init]
  · intro env pre post hkeys hpre hall
    obtain ⟨e1, e2, e3, _⟩ := entry_fields env (pre.length + 1)
    have hl := accumLoop_all_empty cfg env.accumInputs
      (keyPolls (startup env) (pre.length + 1)) (by rw [e1]; exact hN) hall
    rw [main_key1_running cfg env pre post _ hkeys hpre hl]
    exact ⟨rfl, e1, e2, e3⟩

/-- Three empty frames in the compiled configuration: still running, no
sample, three frame pulls. -/
theorem C9_empty_frame_witness :
    0 < defaultConfig.number_of_images ∧
    ∃ s1, accumLoop defaultConfig State.init [noFrame 'x', noFrame 'x', noFrame 'x']
        = LoopResult.running s1 ∧
      s1.image_points = [] ∧ s1.object_points = [] ∧ s1.last_captured_timestamp = 0 ∧
      s1.trace = List.replicate 3 Event.pullFrame :=
  ⟨by decide,
    (C9_empty_frame_skipped defaultConfig (by decide)).2.2.1
      [noFrame 'x', noFrame 'x', noFrame 'x'] (by decide)⟩

/-- C7 as stated fails in the accumulation loop: with `'q'` pressed while an
empty frame is pulled, the iteration is not the last one; the key is not
polled and the loop pulls further frames (here three in all) and is still
running. -/
theorem C7_counterexample :
    (noFrame 'q').key = 'q' ∧
    (accumBody defaultConfig State.init (noFrame 'q')).2 = LoopCtl.next ∧
    Event.waitKey ∉ (accumBody defaultConfig State.init (noFrame 'q')).1.trace ∧
    accumLoop defaultConfig State.init [noFrame 'q', noFrame 'q', noFrame 'q'] =
      LoopResult.running
        { State.init with trace := [Event.pullFrame, Event.pullFrame, Event.pullFrame] } ∧
    framesPulled
      (accumLoop defaultConfig State.init [noFrame 'q', noFrame 'q', noFrame 'q']).state.trace
      = 3 := by
  have h := accumLoop_all_empty defaultConfig [noFrame 'q', noFrame 'q', noFrame 'q']
    State.init (by decide) (by decide)
  rw [h, accumBody_empty defaultConfig State.init (noFrame 'q') (by decide)]
  refine ⟨rfl, rfl, ?_, rfl, ?_⟩
  · simp [State.log, State.init]
  · simp [framesPulled, LoopResult.state, State.init]

/-- C7, amended: the quit key is polled at most once per iteration, at the
end of the body.  The live-undistort loop polls it in every iteration; the
accumulation loop polls it only in iterations whose frame is not empty.  An
iteration that polls `'q'` is the last iteration of its loop: the inputs
after it are not consumed and no further frame is pulled.  An accumulation
iteration whose frame is empty polls no key and hands control back to the
loop test, whatever key is pressed. -/
theorem C7_polled_quit_ends_loop (cfg : Config) :
    (∀ (s : State) (i : AccumInput) (rest : List AccumInput),
      s.image_points.length < cfg.number_of_images →
      i.frame.empty = false → i.key = 'q' →
      accumLoop cfg s (i :: rest) = LoopResult.exitedBreak (accumBody cfg s i).1 ∧
      framesPulled (accumLoop cfg s (i :: rest)).state.trace = framesPulled s.trace + 1) ∧
    (∀ (s : State) (i : AccumInput),
      ((accumBody cfg s i).2 = LoopCtl.brk ↔ (i.frame.empty = false ∧ i.key = 'q')) ∧
      (i.frame.empty = false →
        (accumBody cfg s i).1.trace.count Event.waitKey = s.trace.count Event.waitKey + 1) ∧
      (i.frame.empty = true →
        (accumBody cfg s i).1.trace.count Event.waitKey = s.trace.count Event.waitKey)) ∧
    (∀ (s : State) (i : LiveInput) (rest : List LiveInput), i.key = 'q' →
      liveLoop s (i :: rest) =
        (((liveBody s i).1.log Event.destroyAllWindows).log (Event.cout "Done."),
          Phase.finished) ∧
      framesPulled (liveLoop s (i :: rest)).1.trace = framesPulled s.trace + 1) ∧
    (∀ (s : State) (i : LiveInput),
      ((liveBody s i).2 = LoopCtl.brk ↔ i.key = 'q') ∧
      (liveBody s i).1.trace.count Event.waitKey = s.trace.count Event.waitKey + 1) := by
  refine ⟨?_, ?_, ?_, ?_⟩
  · intro s i rest hg he hq
    have hb : (accumBody cfg s i).2 = LoopCtl.brk := (accumBody_brk_iff cfg s i).2 ⟨he, hq⟩
    have hl : accumLoop cfg s (i :: rest) = LoopResult.exitedBreak (accumBody cfg s i).1 := by
      simp only [accumLoop, hg, if_true]
      split
      · next s1 heq => rw [heq]
      · next s1 heq => rw [heq] at hb; cases hb
    refine ⟨hl, ?_⟩
    rw [hl]
    rcases accumBody_cases cfg s i with ⟨he1, _⟩ | ⟨_, _, _, h⟩ | ⟨_, _, h⟩
    · rw [he] at he1; cases he1
    · rw [h]; simp [framesPulled, LoopResult.state]
    · rw [h]; simp [framesPulled, LoopResult.state]
  · intro s i
    refine ⟨accumBody_brk_iff cfg s i, ?_, ?_⟩
    · intro he
      rcases accumBody_cases cfg s i with ⟨he1, _⟩ | ⟨_, _, _, h⟩ | ⟨_, _, h⟩
      · rw [he] at he1; cases he1
      · rw [h]; simp
      · rw [h]; simp
    · intro he
      rw [accumBody_empty cfg s i he]
      simp [State.log]
  · intro s i rest hq
    have hl : liveLoop s (i :: rest) =
        (((liveBody s i).1.log Event.destroyAllWindows).log (Event.cout "Done."),
          Phase.finished) := by
      simp [liveLoop, liveBody, hq]
    refine ⟨hl, ?_⟩
    rw [hl]
    simp [framesPulled, liveBody, State.log, hq]
  · intro s i
    by_cases hq : i.key = 'q' <;> simp [liveBody, State.log, hq]

/-- With a non-empty frame and `'q'` in the first iteration, the accumulation
loop is left after one frame pull, whatever inputs follow. -/
theorem C7_polled_quit_witness :
    accumLoop defaultConfig State.init [boardMissed 0 'q', boardSeen 5 'x'] =
      LoopResult.exitedBreak
        (accumBody defaultConfig State.init (boardMissed 0 'q')).1 ∧
    framesPulled
      (accumLoop defaultConfig State.init [boardMissed 0 'q', boardSeen 5 'x']).state.trace
      = framesPulled State.init.trace + 1 :=
  (C7_polled_quit_ends_loop defaultConfig).1 State.init (boardMissed 0 'q')
    [boardSeen 5 'x'] (by decide) (by decide) rfl

/-- C10: at every point of every accumulation run `image_points` and
`object_points` have the same length, that length is at most
`number_of_images`, and it grows by at most one per iteration (and never
shrinks); so every call of the solver receives as many world-point lists as
corner lists, at most `number_of_images` of them, each world-point list being
the synthesized one. -/
theorem C10_paired_samples (cfg : Config) :
    (∀ (ins : List AccumInput),
      (accumLoop cfg State.init ins).state.image_points.length =
        (accumLoop cfg State.init ins).state.object_points.length ∧
      (accumLoop cfg State.init ins).state.image_points.length ≤ cfg.number_of_images) ∧
    (∀ (ins : List AccumInput) (i : AccumInput),
      (accumLoop cfg State.init ins).state.image_points.length ≤
        (accumLoop cfg State.init (ins ++ [i])).state.image_points.length ∧
      (accumLoop cfg State.init (ins ++ [i])).state.image_points.length ≤
        (accumLoop cfg State.init ins).state.image_points.length + 1) ∧
    (∀ (env : Env),
      (main cfg env).1.image_points.length = (main cfg env).1.object_points.length ∧
      (main cfg env).1.image_points.length ≤ cfg.number_of_images) ∧
    (∀ (env : Env) (ops : List (List Point3f)) (ips : List (List Point2f)) (sz : Size),
      Event.calibrateCamera ops ips sz ∈ (main cfg env).1.trace →
      ops.length = ips.length ∧ ips.length ≤ cfg.number_of_images ∧
      ∀ o ∈ ops, o = synthObjectPoints cfg) := by
  refine ⟨?_, ?_, ?_, ?_⟩
  · intro ins
    exact accumLoop_sizes cfg ins State.init rfl (Nat.zero_le _)
  · intro ins i
    rw [accumLoop_append]
    cases hl : accumLoop cfg State.init ins with
    | exitedGuard s1 => simp [LoopResult.state]
    | exitedBreak s1 => simp [LoopResult.state]
    | running s1 =>
      have hg := accumLoop_running cfg ins State.init s1 hl
      have hp := (accumLoop_sizes cfg ins State.init rfl (Nat.zero_le _)).1
      rw [hl] at hp
      simp only [LoopResult.state] at hp
      dsimp only
      rw [accumLoop_single cfg s1 i hg]
      simp only [LoopResult.state]
      exact ⟨(accumBody_sizes cfg s1 i hg hp).2.2.1, (accumBody_sizes cfg s1 i hg hp).2.2.2⟩
  · intro env
    rcases main_samples cfg env with ⟨h1, h2⟩ | ⟨k, h1, h2⟩
    · rw [h1, h2]; exact ⟨rfl, Nat.zero_le _⟩
    · rw [h1, h2]
      obtain ⟨e1, e2, _⟩ := entry_fields env k
      exact accumLoop_sizes cfg env.accumInputs (keyPolls (startup env) k)
        (by simp [e1, e2]) (by simp [e1])
  · intro env ops ips sz h
    obtain ⟨k, s1, hl, ho, hi, _⟩ := main_solver_event cfg env ops ips sz h
    obtain ⟨e1, e2, _⟩ := entry_fields env k
    have hsz := accumLoop_sizes cfg env.accumInputs (keyPolls (startup env) k)
      (by simp [e1, e2]) (by simp [e1])
    have hob := accumLoop_object_points cfg env.accumInputs (keyPolls (startup env) k)
      (by rw [e2]; intro o ho; cases ho)
    have hs1 : (accumLoop cfg (keyPolls (startup env) k) env.accumInputs).state = s1 := by
      rcases hl with hl | hl <;> rw [hl] <;> rfl
    rw [hs1] at hsz hob
    subst ho hi
    exact ⟨hsz.1.symm, hsz.2, hob⟩

/-- The full run of the compiled configuration ends with twenty paired
samples. -/
theorem C10_paired_samples_witness :
    (main defaultConfig fullRun).1.image_points.length = 20 ∧
    (main defaultConfig fullRun).1.image_points.length =
      (main defaultConfig fullRun).1.object_points.length ∧
    (main defaultConfig fullRun).1.image_points.length ≤ defaultConfig.number_of_images :=
  ⟨by decide!, ((C10_paired_samples defaultConfig).2.2.1 fullRun).1,
    ((C10_paired_samples defaultConfig).2.2.1 fullRun).2⟩

/-- C1 as stated fails: in generate mode, with one sample accepted and `'q'`
polled in the same iteration, the solver is invoked with one sample, not
`number_of_images = 20`. -/
theorem C1_counterexample :
    Event.calibrateCamera [synthObjectPoints defaultConfig] [[⟨1, 1⟩]] ⟨640, 480⟩
      ∈ (main defaultConfig oneSampleThenQuit).1.trace ∧
    (main defaultConfig oneSampleThenQuit).1.image_points.length = 1 ∧
    defaultConfig.number_of_images = 20 := by
  decide!

/-- C1, amended: whenever the solver is invoked, `image_points` holds at most
`number_of_images` samples; it holds exactly `number_of_images` when the
accumulation loop was left through its test, and it can hold fewer only when
the loop was left through `break`, that is when some iteration with a
non-empty frame polled `'q'`. -/
theorem C1_solver_sample_count (cfg : Config) (env : Env) (ops : List (List Point3f))
    (ips : List (List Point2f)) (sz : Size)
    (h : Event.calibrateCamera ops ips sz ∈ (main cfg env).1.trace) :
    ips.length ≤ cfg.number_of_images ∧
    ((ips.length = cfg.number_of_images ∧
        ∃ k s1, accumLoop cfg (keyPolls (startup env) k) env.accumInputs
          = LoopResult.exitedGuard s1 ∧ ips = s1.image_points) ∨
      (∃ k s1, accumLoop cfg (keyPolls (startup env) k) env.accumInputs
          = LoopResult.exitedBreak s1 ∧ ips = s1.image_points ∧
        ∃ i ∈ env.accumInputs, i.frame.empty = false ∧ i.key = 'q')) := by
  obtain ⟨k, s1, hl, _, hi, _⟩ := main_solver_event cfg env ops ips sz h
  obtain ⟨e1, e2, _⟩ := entry_fields env k
  have hsz := (accumLoop_sizes cfg env.accumInputs (keyPolls (startup env) k)
    (by simp [e1, e2]) (by simp [e1])).2
  rcases hl with hl | hl
  · rw [hl] at hsz
    simp only [LoopResult.state] at hsz
    have hge := accumLoop_exitedGuard cfg env.accumInputs _ s1 hl
    subst hi
    exact ⟨hsz, Or.inl ⟨Nat.le_antisymm hsz hge, k, s1, hl, rfl⟩⟩
  · rw [hl] at hsz
    simp only [LoopResult.state] at hsz
    obtain ⟨s0, i, hi1, _, he, hq, _⟩ := accumLoop_exitedBreak cfg env.accumInputs _ s1 hl
    subst hi
    exact ⟨hsz, Or.inr ⟨k, s1, hl, rfl, i, hi1, he, hq⟩⟩

/-- A full run of the compiled configuration: the solver is called with
twenty samples. -/
theorem C1_solver_sample_count_witness :
    Event.calibrateCamera (List.replicate 20 (synthObjectPoints defaultConfig))
      (List.replicate 20 [⟨1, 1⟩]) ⟨640, 480⟩ ∈ (main defaultConfig fullRun).1.trace ∧
    (List.replicate 20 [(⟨1, 1⟩ : Point2f)]).length ≤ defaultConfig.number_of_images :=
  ⟨by decide!,
    (C1_solver_sample_count defaultConfig fullRun
      (List.replicate 20 (synthObjectPoints defaultConfig))
      (List.replicate 20 [⟨1, 1⟩]) ⟨640, 480⟩ (by decide!)).1⟩

/-- C2 as stated fails: in generate mode, with `'q'` polled in the first
iteration while no sample has been accepted, the accumulation loop is left
through `break`, and the solver is then invoked on the empty sample set and
`calibration_data.xml` is written, before the live windows are opened. -/
theorem C2_counterexample :
    accumLoop defaultConfig (keyPolls (startup quitAtOnce) 1) quitAtOnce.accumInputs =
      LoopResult.exitedBreak
        (accumLoop defaultConfig (keyPolls (startup quitAtOnce) 1)
          quitAtOnce.accumInputs).state ∧
    (main defaultConfig quitAtOnce).1.image_points.length = 0 ∧
    solverCalls (main defaultConfig quitAtOnce).1.trace = [([], [], ⟨640, 480⟩)] ∧
    Event.fsWrite "calibration_data.xml" ∈ (main defaultConfig quitAtOnce).1.trace ∧
    (main defaultConfig quitAtOnce).2 = Phase.liveUndistort := by
  decide!

/-- C2, amended: in a session whose first mode key is `'1'`, when the
accumulation loop is left because `'q'` was polled (with fewer than
`number_of_images` samples or not), calibration is not aborted: the solver is
invoked once, on the samples accepted so far, and `calibration_data.xml` is
written, before the accumulation window is closed and the controller moves
on to the live-undistort phase. -/
theorem C2_quit_still_solves (cfg : Config) (env : Env) (pre post : List Char)
    (s1 : State)
    (hkeys : env.modeKeys = pre ++ '1' :: post)
    (hpre : ∀ c ∈ pre, isModeKey c = false)
    (hq : accumLoop cfg (keyPolls (startup env) (pre.length + 1)) env.accumInputs
      = LoopResult.exitedBreak s1) :
    (∃ i ∈ env.accumInputs, i.frame.empty = false ∧ i.key = 'q') ∧
    s1.image_points.length ≤ cfg.number_of_images ∧
    solverCalls (main cfg env).1.trace =
      [(s1.object_points, s1.image_points, s1.frame_size)] ∧
    (∃ d, (main cfg env).1.trace =
      s1.trace ++ ([Event.calibrateCamera s1.object_points s1.image_points s1.frame_size,
        Event.cout "Reprojection error is: ", Event.fsWrite "calibration_data.xml",
        Event.destroyWindow "Working Frame", Event.namedWindow "Calibrated Image",
        Event.namedWindow "Distorted Image"] ++ d)) ∧
    ((main cfg env).2 = Phase.liveUndistort ∨ (main cfg env).2 = Phase.finished) := by
  have hm := main_key1_exited cfg env pre post s1 hkeys hpre (Or.inr hq)
  obtain ⟨e1, e2, _⟩ := entry_fields env (pre.length + 1)
  have hsz := (accumLoop_sizes cfg env.accumInputs (keyPolls (startup env) (pre.length + 1))
    (by simp [e1, e2]) (by simp [e1])).2
  rw [hq] at hsz
  obtain ⟨s0, i, hi1, _, he, hk, _⟩ := accumLoop_exitedBreak cfg env.accumInputs _ s1 hq
  obtain ⟨d, hd, _, hph, _⟩ := afterModeSelection_shape env (solveAndPersist env s1)
  have hsolver := accumLoop_filterMap solverCallOf solverCallOf_control (fun _ => rfl) cfg
    env.accumInputs (keyPolls (startup env) (pre.length + 1))
  rw [hq, entry_filterMap solverCallOf solverCallOf_control] at hsolver
  simp only [LoopResult.state] at hsolver
  refine ⟨⟨i, hi1, he, hk⟩, hsz, ?_, ⟨d, ?_⟩, ?_⟩
  · rw [hm]
    unfold solverCalls
    rw [afterModeSelection_filterMap solverCallOf solverCallOf_control,
      solveAndPersist_trace, List.filterMap_append, hsolver]
    simp [solverCallOf]
  · rw [hm, hd]
    simp [solveAndPersist_trace]
  · rw [hm]
    exact hph

/-- One sample accepted, then `'q'`: the solver gets that one sample and the
file is written. -/
theorem C2_quit_still_solves_witness :
    accumLoop defaultConfig (keyPolls (startup oneSampleThenQuit) 1)
        oneSampleThenQuit.accumInputs =
      LoopResult.exitedBreak
        (accumLoop defaultConfig (keyPolls (startup oneSampleThenQuit) 1)
          oneSampleThenQuit.accumInputs).state ∧
    (accumLoop defaultConfig (keyPolls (startup oneSampleThenQuit) 1)
      oneSampleThenQuit.accumInputs).state.image_points = [[⟨1, 1⟩]] ∧
    solverCalls (main defaultConfig oneSampleThenQuit).1.trace =
      [((accumLoop defaultConfig (keyPolls (startup oneSampleThenQuit) 1)
          oneSampleThenQuit.accumInputs).state.object_points,
        (accumLoop defaultConfig (keyPolls (startup oneSampleThenQuit) 1)
          oneSampleThenQuit.accumInputs).state.image_points,
        (accumLoop defaultConfig (keyPolls (startup oneSampleThenQuit) 1)
          oneSampleThenQuit.accumInputs).state.frame_size)] ∧
    ((main defaultConfig oneSampleThenQuit).2 = Phase.liveUndistort ∨
      (main defaultConfig oneSampleThenQuit).2 = Phase.finished) :=
  ⟨by decide!, by decide!,
    (C2_quit_still_solves defaultConfig oneSampleThenQuit [] []
      (accumLoop defaultConfig (keyPolls (startup oneSampleThenQuit) 1)
        oneSampleThenQuit.accumInputs).state
      rfl (by decide) (by decide!)).2.2.1,
    (C2_quit_still_solves defaultConfig oneSampleThenQuit [] []
      (accumLoop defaultConfig (keyPolls (startup oneSampleThenQuit) 1)
        oneSampleThenQuit.accumInputs).state
      rfl (by decide) (by decide!)).2.2.2.2⟩

/-- C3: in every session, and in every accumulation run from a fresh
session, any two consecutively accepted samples have acceptance timestamps
(the values assigned to `last_captured_timestamp`, exact rationals in
seconds) at least 1 second apart, and the acceptance timestamps are strictly
increasing in capture order; there is one acceptance timestamp per sample. -/
theorem C3_temporal_spacing (cfg : Config) :
    (∀ (env : Env),
      List.Chain' (fun a b : ℚ => b - a ≥ 1) (acceptedTimestamps (main cfg env).1.trace) ∧
      List.Pairwise (fun a b : ℚ => a < b) (acceptedTimestamps (main cfg env).1.trace)) ∧
    (∀ (ins : List AccumInput),
      List.Chain' (fun a b : ℚ => b - a ≥ 1)
        (acceptedTimestamps (accumLoop cfg State.init ins).state.trace) ∧
      List.Pairwise (fun a b : ℚ => a < b)
        (acceptedTimestamps (accumLoop cfg State.init ins).state.trace) ∧
      (acceptedTimestamps (accumLoop cfg State.init ins).state.trace).length =
        (accumLoop cfg State.init ins).state.image_points.length) := by
  refine ⟨?_, ?_⟩
  · intro env
    rcases main_accepted cfg env with h | ⟨k, h⟩
    · rw [h]
      exact ⟨List.chain'_nil, List.Pairwise.nil⟩
    · rw [h]
      have h0 := entry_filterMap acceptedOf acceptedOf_control env k
      apply spacing_weaken
      apply accumLoop_spacing
      · unfold acceptedTimestamps
        rw [h0]
        exact List.chain'_nil
      · unfold acceptedTimestamps
        rw [h0]
        intro t ht
        cases ht
  · intro ins
    have hc := accumLoop_spacing cfg ins State.init List.chain'_nil (by
      intro t ht
      cases ht)
    exact ⟨(spacing_weaken _ hc).1, (spacing_weaken _ hc).2,
      accumLoop_accepted_count cfg ins State.init rfl⟩

/-- The full run of the compiled configuration accepts twenty samples, two
seconds apart. -/
theorem C3_temporal_spacing_witness :
    acceptedTimestamps (main defaultConfig fullRun).1.trace =
      (List.range 20).map (fun n => 2 * (n : ℚ) + 2) ∧
    List.Chain' (fun a b : ℚ => b - a ≥ 1)
      (acceptedTimestamps (main defaultConfig fullRun).1.trace) :=
  ⟨by decide!, ((C3_temporal_spacing defaultConfig).1 fullRun).1⟩

/-- C6: in every session at most one of the three branches runs, and exactly
one has run once the controller is in the live-undistort phase; when the
first mode key is `'2'` or `'3'` the branch that runs is the matching preset
load, no sample is ever accumulated (`image_points` and `object_points` stay
empty, nothing is accepted) and the solver is never invoked. -/
theorem C6_mode_exclusivity (cfg : Config) (env : Env) :
    (branchesRun (main cfg env).1.trace).length ≤ 1 ∧
    (((main cfg env).2 = Phase.liveUndistort ∨ (main cfg env).2 = Phase.finished) →
      (branchesRun (main cfg env).1.trace).length = 1) ∧
    (∀ pre post, env.modeKeys = pre ++ '2' :: post → (∀ c ∈ pre, isModeKey c = false) →
      branchesRun (main cfg env).1.trace = [Branch.loadBad] ∧
      (main cfg env).1.image_points = [] ∧ (main cfg env).1.object_points = [] ∧
      acceptedTimestamps (main cfg env).1.trace = [] ∧
      solverCalls (main cfg env).1.trace = [] ∧
      ((main cfg env).2 = Phase.liveUndistort ∨ (main cfg env).2 = Phase.finished)) ∧
    (∀ pre post, env.modeKeys = pre ++ '3' :: post → (∀ c ∈ pre, isModeKey c = false) →
      branchesRun (main cfg env).1.trace = [Branch.loadGood] ∧
      (main cfg env).1.image_points = [] ∧ (main cfg env).1.object_points = [] ∧
      acceptedTimestamps (main cfg env).1.trace = [] ∧
      solverCalls (main cfg env).1.trace = [] ∧
      ((main cfg env).2 = Phase.liveUndistort ∨ (main cfg env).2 = Phase.finished)) := by
  refine ⟨?_, ?_, ?_, ?_⟩
  · rcases main_branches cfg env with ⟨h, _⟩ | ⟨⟨b, h⟩, _⟩ <;> rw [h] <;> simp
  · intro hph
    rcases main_branches cfg env with ⟨_, h⟩ | ⟨⟨b, h⟩, _⟩
    · rcases h with h | h <;> rcases hph with hph | hph <;> rw [h] at hph <;> cases hph
    · rw [h]; rfl
  · intro pre post hkeys hpre
    have hm := main_key2 cfg env pre post hkeys hpre
    obtain ⟨e1, e2, _⟩ := entry_fields env (pre.length + 1)
    obtain ⟨a1, a2, _⟩ := afterModeSelection_fields env
      (loadPreset "bad_calib.xml" env.bad_calib (keyPolls (startup env) (pre.length + 1)))
    obtain ⟨l1, l2, _, _, _, l6⟩ := loadPreset_fields "bad_calib.xml" env.bad_calib
      (keyPolls (startup env) (pre.length + 1))
    rw [hm]
    refine ⟨?_, by rw [a1, l1, e1], by rw [a2, l2, e2], ?_, ?_,
      (afterModeSelection_shape env _).choose_spec.2.2.1⟩
    · unfold branchesRun
      rw [afterModeSelection_filterMap branchOf branchOf_control, l6,
        List.filterMap_append, entry_filterMap branchOf branchOf_control]
      simp [branchOf]
    · unfold acceptedTimestamps
      rw [afterModeSelection_filterMap acceptedOf acceptedOf_control, l6,
        List.filterMap_append, entry_filterMap acceptedOf acceptedOf_control]
      simp [acceptedOf]
    · unfold solverCalls
      rw [afterModeSelection_filterMap solverCallOf solverCallOf_control, l6,
        List.filterMap_append, entry_filterMap solverCallOf solverCallOf_control]
      simp [solverCallOf]
  · intro pre post hkeys hpre
    have hm := main_key3 cfg env pre post hkeys hpre
    obtain ⟨e1, e2, _⟩ := entry_fields env (pre.length + 1)
    obtain ⟨a1, a2, _⟩ := afterModeSelection_fields env
      (loadPreset "good_calib.xml" env.good_calib (keyPolls (startup env) (pre.length + 1)))
    obtain ⟨l1, l2, _, _, _, l6⟩ := loadPreset_fields "good_calib.xml" env.good_calib
      (keyPolls (startup env) (pre.length + 1))
    rw [hm]
    refine ⟨?_, by rw [a1, l1, e1], by rw [a2, l2, e2], ?_, ?_,
      (afterModeSelection_shape env _).choose_spec.2.2.1⟩
    · unfold branchesRun
      rw [afterModeSelection_filterMap branchOf branchOf_control, l6,
        List.filterMap_append, entry_filterMap branchOf branchOf_control]
      simp [branchOf]
    · unfold acceptedTimestamps
      rw [afterModeSelection_filterMap acceptedOf acceptedOf_control, l6,
        List.filterMap_append, entry_filterMap acceptedOf acceptedOf_control]
      simp [acceptedOf]
    · unfold solverCalls
      rw [afterModeSelection_filterMap solverCallOf solverCallOf_control, l6,
        List.filterMap_append, entry_filterMap solverCallOf solverCallOf_control]
      simp [solverCallOf]

/-- A preset session with frames on offer: only the load of `bad_calib.xml`
runs and no sample is taken. -/
theorem C6_mode_exclusivity_witness :
    branchesRun (main defaultConfig presetBadAbsent).1.trace = [Branch.loadBad] ∧
    (main defaultConfig presetBadAbsent).1.image_points = [] ∧
    (main defaultConfig presetBadAbsent).1.object_points = [] ∧
    acceptedTimestamps (main defaultConfig presetBadAbsent).1.trace = [] ∧
    solverCalls (main defaultConfig presetBadAbsent).1.trace = [] ∧
    ((main defaultConfig presetBadAbsent).2 = Phase.liveUndistort ∨
      (main defaultConfig presetBadAbsent).2 = Phase.finished) :=
  (C6_mode_exclusivity defaultConfig presetBadAbsent).2.2.1 ['x'] [] rfl (by decide)

/-- C8: whenever the mode-selection loop is left, the controller goes on to
the live-undistort loop, whatever the matrices are; when both the camera
matrix and the distortion vector are empty it first emits the warning
"Calibration data is unavailable" and then runs the live loop all the same. -/
theorem C8_degraded_start (cfg : Config) (env : Env) :
    ((modeSelection cfg env (startup env) env.modeKeys).2 = Phase.ready →
      main cfg env =
        afterModeSelection env (modeSelection cfg env (startup env) env.modeKeys).1 ∧
      ((main cfg env).2 = Phase.liveUndistort ∨ (main cfg env).2 = Phase.finished)) ∧
    (∀ (s : State),
      (afterModeSelection env s).2 = Phase.liveUndistort ∨
        (afterModeSelection env s).2 = Phase.finished) ∧
    (∀ (s : State), s.intrinsic_matrix.empty = true → s.distortion_coefficients.empty = true →
      afterModeSelection env s =
        liveLoop
          { s with trace := s.trace ++ [Event.destroyWindow "Working Frame",
              Event.namedWindow "Calibrated Image", Event.namedWindow "Distorted Image",
              Event.cout "Calibration data is unavailable"] }
          env.liveInputs ∧
      Event.cout "Calibration data is unavailable" ∈ (afterModeSelection env s).1.trace ∧
      ((afterModeSelection env s).2 = Phase.liveUndistort ∨
        (afterModeSelection env s).2 = Phase.finished)) := by
  refine ⟨?_, ?_, ?_⟩
  · intro hr
    have hm : main cfg env =
        afterModeSelection env (modeSelection cfg env (startup env) env.modeKeys).1 := by
      rw [main]
      generalize modeSelection cfg env (startup env) env.modeKeys = r at hr
      obtain ⟨s, ph⟩ := r
      simp only at hr
      subst hr
      rfl
    refine ⟨hm, ?_⟩
    rw [hm]
    exact (afterModeSelection_shape env _).choose_spec.2.2.1
  · intro s
    exact (afterModeSelection_shape env s).choose_spec.2.2.1
  · intro s h1 h2
    obtain ⟨d, hd, _, hph, hw⟩ := afterModeSelection_shape env s
    refine ⟨?_, ?_, hph⟩
    · simp [afterModeSelection, State.log, h1]
    · rw [hd]
      exact List.mem_append_right _ (List.mem_append_right _ (hw (Or.inl h1)))

/-- Preset `'2'` with `bad_calib.xml` absent: both matrices are empty on
entry, the warning is emitted and the live loop is running. -/
theorem C8_degraded_start_witness :
    (modeSelection defaultConfig presetBadAbsent (startup presetBadAbsent)
      presetBadAbsent.modeKeys).2 = Phase.ready ∧
    (main defaultConfig presetBadAbsent).1.intrinsic_matrix.empty = true ∧
    (main defaultConfig presetBadAbsent).1.distortion_coefficients.empty = true ∧
    Event.cout "Calibration data is unavailable"
      ∈ (main defaultConfig presetBadAbsent).1.trace ∧
    ((main defaultConfig presetBadAbsent).2 = Phase.liveUndistort ∨
      (main defaultConfig presetBadAbsent).2 = Phase.finished) :=
  ⟨by decide!, by decide!, by decide!, by decide!,
    ((C8_degraded_start defaultConfig presetBadAbsent).1 (by decide!)).2⟩

end CameraCalibration
